import Mathlib

set_option maxRecDepth 40000

/- Verification of the DSPy shipping-quote tutorial repository: shallow embedding of
   the JSON object extractor, tool-call validators, tool invokers and round
   orchestrators of runner2.py and runner3.py, and the postal resolver of main.py. -/

namespace DSPyTut

/-- Characters used by the scanners, named to keep literals out of the code. -/
def lbrace : Char := Char.ofNat 123

def rbrace : Char := Char.ofNat 125

def qmark : Char := Char.ofNat 34

def bslash : Char := Char.ofNat 92

/-- Python JSON values as produced by `json.loads`.  A number is modelled by its
    exact value as an unreduced fraction `num / den` (ints and floats are not
    distinguished; the parser always produces `den = 10 ^ k > 0`; see
    `parseNumber`). Objects keep the key/value pairs in insertion order, with
    duplicate keys resolved to the last value as Python dicts do (`insertKV`). -/
inductive Json where
  | null : Json
  | bool (b : Bool) : Json
  | num (n : Int) (d : Nat) : Json
  | str (s : String) : Json
  | arr (xs : List Json) : Json
  | obj (kvs : List (String × Json)) : Json

/-- The rational value of a `Json.num` literal. -/
def numVal (n : Int) (d : Nat) : ℚ := (n : ℚ) / (d : ℚ)

/-- Python dict insertion: an existing key keeps its position and gets the new value. -/
def insertKV : List (String × Json) → String → Json → List (String × Json)
  | [], k, v => [(k, v)]
  | (k', v') :: rest, k, v =>
    if k' = k then (k, v) :: rest else (k', v') :: insertKV rest k v

/-- JSON whitespace as accepted by Python's `json` module. -/
def isJsonWs (c : Char) : Bool := c = ' ' || c = '\t' || c = '\n' || Char.ofNat 13 = c

def skipWs (cs : List Char) : List Char := cs.dropWhile isJsonWs

def takeDigits (cs : List Char) : List Char × List Char :=
  (cs.takeWhile Char.isDigit, cs.dropWhile Char.isDigit)

def digitsToNat (ds : List Char) : Nat := ds.foldl (fun n c => n * 10 + (c.toNat - 48)) 0

def hexVal (c : Char) : Option Nat :=
  if c.isDigit then some (c.toNat - 48)
  else if 'a' ≤ c ∧ c ≤ 'f' then some (c.toNat - 87)
  else if 'A' ≤ c ∧ c ≤ 'F' then some (c.toNat - 55)
  else none

/-- Integer part of a JSON number: `0`, or a nonzero digit followed by digits.
    A leading `0` is never followed by further digits (JSON grammar). -/
def parseIntPart : List Char → Option (Nat × List Char)
  | [] => none
  | c :: rest =>
    if c = '0' then some (0, rest)
    else if c.isDigit then
      let (ds, r) := takeDigits (c :: rest)
      some (digitsToNat ds, r)
    else none

/-- Optional fraction part: `.` followed by one or more digits. -/
def parseFracPart : List Char → Option (List Char × List Char)
  | '.' :: rest =>
    let (ds, r) := takeDigits rest
    if ds.isEmpty then none else some (ds, r)
  | cs => some ([], cs)

/-- Optional exponent part: `e`/`E`, optional sign, one or more digits. -/
def parseExpPart : List Char → Option (Int × List Char)
  | c :: rest =>
    if c = 'e' ∨ c = 'E' then
      match rest with
      | '-' :: r =>
        let (ds, r') := takeDigits r
        if ds.isEmpty then none else some (-(digitsToNat ds : Int), r')
      | '+' :: r =>
        let (ds, r') := takeDigits r
        if ds.isEmpty then none else some ((digitsToNat ds : Int), r')
      | r =>
        let (ds, r') := takeDigits r
        if ds.isEmpty then none else some ((digitsToNat ds : Int), r')
    else some (0, c :: rest)
  | [] => some (0, [])

/-- JSON number literal, kept as an exact unreduced fraction.  Python parses
    floats with IEEE rounding; the claims only ever compare parsed weights
    against the exactly representable bounds 0 and 50, where exact and IEEE
    comparison agree. -/
def parseNumber (cs : List Char) : Option ((Int × Nat) × List Char) := do
  let (neg, cs1) := match cs with
    | '-' :: r => (true, r)
    | _ => (false, cs)
  let (ip, cs2) ← parseIntPart cs1
  let (fd, cs3) ← parseFracPart cs2
  let (ex, cs4) ← parseExpPart cs3
  let mant : Nat := ip * 10 ^ fd.length + digitsToNat fd
  let den0 : Nat := 10 ^ fd.length
  let signed : Int := if neg then -(mant : Int) else (mant : Int)
  let (n, d) : Int × Nat :=
    if 0 ≤ ex then (signed * (10 : Int) ^ ex.toNat, den0)
    else (signed, den0 * 10 ^ (-ex).toNat)
  some ((n, d), cs4)

/-- Body of a JSON string literal after the opening quote.  Strict mode: raw
    control characters are rejected.  `\\u` escapes for surrogate code points are
    rejected (Lean `Char` has no surrogates; no claim involves them). -/
def parseStringBody (acc : List Char) : List Char → Option (String × List Char)
  | [] => none
  | c :: rest =>
    if c = qmark then some (⟨acc.reverse⟩, rest)
    else if c = bslash then
      match rest with
      | [] => none
      | e :: rest2 =>
        if e = qmark then parseStringBody (qmark :: acc) rest2
        else if e = bslash then parseStringBody (bslash :: acc) rest2
        else if e = '/' then parseStringBody ('/' :: acc) rest2
        else if e = 'b' then parseStringBody (Char.ofNat 8 :: acc) rest2
        else if e = 'f' then parseStringBody (Char.ofNat 12 :: acc) rest2
        else if e = 'n' then parseStringBody ('\n' :: acc) rest2
        else if e = 'r' then parseStringBody (Char.ofNat 13 :: acc) rest2
        else if e = 't' then parseStringBody ('\t' :: acc) rest2
        else if e = 'u' then
          match rest2 with
          | h1 :: h2 :: h3 :: h4 :: rest3 =>
            match hexVal h1, hexVal h2, hexVal h3, hexVal h4 with
            | some a, some b, some c3, some d =>
              let n := ((a * 16 + b) * 16 + c3) * 16 + d
              if 55296 ≤ n ∧ n ≤ 57343 then none
              else parseStringBody (Char.ofNat n :: acc) rest3
            | _, _, _, _ => none
          | _ => none
        else none
    else if c.toNat < 32 then none
    else parseStringBody (c :: acc) rest

mutual

/-- One JSON value (with leading whitespace), returning the remaining input.
    Fueled recursion: every recursive call consumes at least one character, so
    fuel = input length + 1 suffices (see `json_loadsL`). -/
def parseValue : Nat → List Char → Option (Json × List Char)
  | 0, _ => none
  | fuel + 1, cs =>
    match skipWs cs with
    | [] => none
    | c :: rest =>
      if c = lbrace then
        match skipWs rest with
        | c2 :: rest2 =>
          if c2 = rbrace then some (Json.obj [], rest2)
          else parseMembers fuel (c2 :: rest2) []
        | [] => none
      else if c = '[' then
        match skipWs rest with
        | c2 :: rest2 =>
          if c2 = ']' then some (Json.arr [], rest2)
          else parseElems fuel (c2 :: rest2) []
        | [] => none
      else if c = qmark then
        (parseStringBody [] rest).map fun p => (Json.str p.1, p.2)
      else
        match c :: rest with
        | 't' :: 'r' :: 'u' :: 'e' :: r => some (Json.bool true, r)
        | 'f' :: 'a' :: 'l' :: 's' :: 'e' :: r => some (Json.bool false, r)
        | 'n' :: 'u' :: 'l' :: 'l' :: r => some (Json.null, r)
        | cs' => (parseNumber cs').map fun p => (Json.num p.1.1 p.1.2, p.2)

/-- Members of a JSON object after `{` (nonempty case). -/
def parseMembers : Nat → List Char → List (String × Json) → Option (Json × List Char)
  | 0, _, _ => none
  | fuel + 1, cs, acc =>
    match skipWs cs with
    | [] => none
    | c :: rest =>
      if c = qmark then
        match parseStringBody [] rest with
        | none => none
        | some (key, r1) =>
          match skipWs r1 with
          | ':' :: r2 =>
            match parseValue fuel r2 with
            | none => none
            | some (v, r3) =>
              let acc' := insertKV acc key v
              match skipWs r3 with
              | ',' :: r4 => parseMembers fuel r4 acc'
              | c2 :: r4 => if c2 = rbrace then some (Json.obj acc', r4) else none
              | [] => none
          | _ => none
      else none

/-- Elements of a JSON array after `[` (nonempty case). -/
def parseElems : Nat → List Char → List Json → Option (Json × List Char)
  | 0, _, _ => none
  | fuel + 1, cs, acc =>
    match parseValue fuel cs with
    | none => none
    | some (v, r1) =>
      match skipWs r1 with
      | ',' :: r2 => parseElems fuel r2 (acc ++ [v])
      | c2 :: r2 => if c2 = ']' then some (Json.arr (acc ++ [v]), r2) else none
      | [] => none

end

/-- The JSON reading of a character list with no recursion bound: one JSON
    value, then only trailing whitespace; anything else is `none`.  This is the
    value semantics of a span; `json.loads` itself also raises RecursionError
    past the interpreter's recursion limit, which `json_loads_excL` models.
    The unbounded reading is used by the crash-free total models (`runner2.scan`
    and the invokers' body decoding), where collapsing the RecursionError path
    only removes runs that raise. -/
def json_loadsL (cs : List Char) : Option Json :=
  match parseValue (cs.length + 1) cs with
  | some (v, rest) => if (skipWs rest).isEmpty then some v else none
  | none => none

/-- Python's `json.loads` on a string. -/
def json_loads (s : String) : Option Json := json_loadsL s.toList

example : json_loads "\x7b\"a\":1\x7d" = some (Json.obj [("a", Json.num 1 1)]) := by rfl

example : json_loads "\x7b\"b\":\x7b\"c\":2\x7d\x7d"
    = some (Json.obj [("b", Json.obj [("c", Json.num 2 1)])]) := by rfl

example : json_loads "\x7b\"x\":1" = none := by rfl

example : json_loads " [1.5, true, null, \"x\"] "
    = some (Json.arr [Json.num 15 10, Json.bool true, Json.null, Json.str "x"]) := by rfl

example : json_loads "[0, -2.5e1, 01]" = none := by rfl

example : json_loads "[0, -2.5e1]" = some (Json.arr [Json.num 0 1, Json.num (-250) 10]) := by rfl

/-- A failure of Python's `json.loads`: a `json.JSONDecodeError` on malformed
    input, or a `RecursionError` when nesting exceeds the interpreter's
    recursion budget. -/
inductive PyErr where
  | decodeError
  | recursionError

/-- An exception escaping a runner function: the TypeError of runner3's
    `tool_name not in tools` on an unhashable name, the AttributeError of
    runner3's `args.items()` on a non-dict args, the RecursionError of
    `json.loads` escaping runner2's extractor, and a `requests` exception
    escaping runner2's `call_tool`. -/
inductive PyExn where
  | typeError
  | attributeError
  | recursionError
  | requestError (msg : String)

mutual

/-- `parseValue` with CPython's recursion budget made explicit: entering a
    nested container when `limit` levels are already open raises RecursionError
    (as `json.loads` does on deeply nested input, well-formed or not); every
    other failure is a decode error.  `depth` counts the containers currently
    open; scalars never raise. -/
def parseValueE (limit : Nat) : Nat → Nat → List Char → Except PyErr (Json × List Char)
  | 0, _, _ => Except.error PyErr.decodeError
  | fuel + 1, depth, cs =>
    match skipWs cs with
    | [] => Except.error PyErr.decodeError
    | c :: rest =>
      if c = lbrace then
        if limit ≤ depth then Except.error PyErr.recursionError
        else
          match skipWs rest with
          | c2 :: rest2 =>
            if c2 = rbrace then Except.ok (Json.obj [], rest2)
            else parseMembersE limit fuel (depth + 1) (c2 :: rest2) []
          | [] => Except.error PyErr.decodeError
      else if c = '[' then
        if limit ≤ depth then Except.error PyErr.recursionError
        else
          match skipWs rest with
          | c2 :: rest2 =>
            if c2 = ']' then Except.ok (Json.arr [], rest2)
            else parseElemsE limit fuel (depth + 1) (c2 :: rest2) []
          | [] => Except.error PyErr.decodeError
      else if c = qmark then
        match parseStringBody [] rest with
        | some p => Except.ok (Json.str p.1, p.2)
        | none => Except.error PyErr.decodeError
      else
        match c :: rest with
        | 't' :: 'r' :: 'u' :: 'e' :: r => Except.ok (Json.bool true, r)
        | 'f' :: 'a' :: 'l' :: 's' :: 'e' :: r => Except.ok (Json.bool false, r)
        | 'n' :: 'u' :: 'l' :: 'l' :: r => Except.ok (Json.null, r)
        | cs' =>
          match parseNumber cs' with
          | some p => Except.ok (Json.num p.1.1 p.1.2, p.2)
          | none => Except.error PyErr.decodeError

/-- `parseMembers` under the recursion budget: member values are parsed at the
    object's depth. -/
def parseMembersE (limit : Nat) :
    Nat → Nat → List Char → List (String × Json) → Except PyErr (Json × List Char)
  | 0, _, _, _ => Except.error PyErr.decodeError
  | fuel + 1, depth, cs, acc =>
    match skipWs cs with
    | [] => Except.error PyErr.decodeError
    | c :: rest =>
      if c = qmark then
        match parseStringBody [] rest with
        | none => Except.error PyErr.decodeError
        | some (key, r1) =>
          match skipWs r1 with
          | ':' :: r2 =>
            match parseValueE limit fuel depth r2 with
            | Except.error err => Except.error err
            | Except.ok (v, r3) =>
              let acc' := insertKV acc key v
              match skipWs r3 with
              | ',' :: r4 => parseMembersE limit fuel depth r4 acc'
              | c2 :: r4 =>
                if c2 = rbrace then Except.ok (Json.obj acc', r4)
                else Except.error PyErr.decodeError
              | [] => Except.error PyErr.decodeError
          | _ => Except.error PyErr.decodeError
      else Except.error PyErr.decodeError

/-- `parseElems` under the recursion budget. -/
def parseElemsE (limit : Nat) :
    Nat → Nat → List Char → List Json → Except PyErr (Json × List Char)
  | 0, _, _, _ => Except.error PyErr.decodeError
  | fuel + 1, depth, cs, acc =>
    match parseValueE limit fuel depth cs with
    | Except.error err => Except.error err
    | Except.ok (v, r1) =>
      match skipWs r1 with
      | ',' :: r2 => parseElemsE limit fuel depth r2 (acc ++ [v])
      | c2 :: r2 =>
        if c2 = ']' then Except.ok (Json.arr (acc ++ [v]), r2)
        else Except.error PyErr.decodeError
      | [] => Except.error PyErr.decodeError

end

/-- Python's `json.loads` with its recursion limit made explicit: one value and
    only trailing whitespace.  Malformed input is a decode error; nesting more
    than `limit` containers is an uncaught RecursionError. -/
def json_loads_excL (limit : Nat) (cs : List Char) : Except PyErr Json :=
  match parseValueE limit (cs.length + 1) 0 cs with
  | Except.ok (v, rest) =>
    if (skipWs rest).isEmpty then Except.ok v else Except.error PyErr.decodeError
  | Except.error e => Except.error e

example : json_loads_excL 1000 "\x7b\"a\":1\x7d".toList
    = Except.ok (Json.obj [("a", Json.num 1 1)]) := by rfl

example : json_loads_excL 1000 "\x7b\"x\":1".toList = Except.error PyErr.decodeError := by rfl

example : json_loads_excL 3 "\x7b\"a\":[[[1]]]\x7d".toList
    = Except.error PyErr.recursionError := by rfl

example : json_loads_excL 4 "\x7b\"a\":[[[1]]]\x7d".toList
    = Except.ok (Json.obj [("a", Json.arr [Json.arr [Json.arr [Json.num 1 1]]])]) := by rfl

/-- State of the brace-balancing scanner of `extract_json_objects`
    (runner2.py lines 17-56, runner3.py lines 137-169): the objects collected so
    far, the index of the opening brace of the current span (None when outside a
    span), the brace depth, and the string/escape flags. -/
structure ScanSt where
  objs : List Json
  start : Option Nat
  depth : Int
  in_str : Bool
  esc : Bool

namespace runner2

/-- The character loop of runner2.py's `extract_json_objects` under the
    recursion-unbounded reading `json_loadsL`: `i` is the index of the head of
    `rest` within `text`, and a completed span `text[start:i+1]` is parsed,
    parse failures being dropped.  This total model drops a span on ANY parse
    failure; in the source `except json.JSONDecodeError` does not catch the
    RecursionError of a deeply nested span, which `scanE` models.  It is kept
    for the determinism and result-shape claims, whose statements only concern
    runs, and where removing the raise path only enlarges the domain. -/
def scan (text : List Char) : Nat → ScanSt → List Char → ScanSt
  | _, s, [] => s
  | i, s, ch :: rest =>
    match s.start with
    | none =>
      if ch = lbrace then
        scan text (i + 1) { s with start := some i, depth := 1, in_str := false, esc := false } rest
      else scan text (i + 1) s rest
    | some st =>
      if s.in_str then
        if s.esc then scan text (i + 1) { s with esc := false } rest
        else if ch = bslash then scan text (i + 1) { s with esc := true } rest
        else if ch = qmark then scan text (i + 1) { s with in_str := false } rest
        else scan text (i + 1) s rest
      else if ch = qmark then scan text (i + 1) { s with in_str := true } rest
      else if ch = lbrace then scan text (i + 1) { s with depth := s.depth + 1 } rest
      else if ch = rbrace then
        let d := s.depth - 1
        if d = 0 then
          let chunk := (text.drop st).take (i + 1 - st)
          scan text (i + 1)
            { s with depth := d, start := none,
                     objs := match json_loadsL chunk with
                             | some v => s.objs ++ [v]
                             | none => s.objs } rest
        else scan text (i + 1) { s with depth := d } rest
      else scan text (i + 1) s rest

/-- runner2.py `extract_json_objects` on a character list. -/
def extractL (text : List Char) : List Json :=
  (scan text 0 ⟨[], none, 0, false, false⟩ text).objs

/-- runner2.py `extract_json_objects`. -/
def extract_json_objects (s : String) : List Json := extractL s.toList

end runner2

namespace runner3

/-- The character loop of runner3.py's `extract_json_objects` under the
    recursion-unbounded reading.  It differs from runner2's in not resetting
    `in_str`/`esc` when a span opens (they are always false at that point, see
    `scan3_eq_scan2`) and, in the source, in its bare `except:` clause, which
    does catch RecursionError (see `runner3.scanE` for the limit-aware loop). -/
def scan (text : List Char) : Nat → ScanSt → List Char → ScanSt
  | _, s, [] => s
  | i, s, ch :: rest =>
    match s.start with
    | none =>
      if ch = lbrace then
        scan text (i + 1) { s with start := some i, depth := 1 } rest
      else scan text (i + 1) s rest
    | some st =>
      if s.in_str then
        if s.esc then scan text (i + 1) { s with esc := false } rest
        else if ch = bslash then scan text (i + 1) { s with esc := true } rest
        else if ch = qmark then scan text (i + 1) { s with in_str := false } rest
        else scan text (i + 1) s rest
      else if ch = qmark then scan text (i + 1) { s with in_str := true } rest
      else if ch = lbrace then scan text (i + 1) { s with depth := s.depth + 1 } rest
      else if ch = rbrace then
        let d := s.depth - 1
        if d = 0 then
          let chunk := (text.drop st).take (i + 1 - st)
          scan text (i + 1)
            { s with depth := d, start := none,
                     objs := match json_loadsL chunk with
                             | some v => s.objs ++ [v]
                             | none => s.objs } rest
        else scan text (i + 1) { s with depth := d } rest
      else scan text (i + 1) s rest

/-- runner3.py `extract_json_objects` on a character list. -/
def extractL (text : List Char) : List Json :=
  (scan text 0 ⟨[], none, 0, false, false⟩ text).objs

/-- runner3.py `extract_json_objects`. -/
def extract_json_objects (s : String) : List Json := extractL s.toList

end runner3

/-- State of the span-collecting scanner `scanSpans`, which runs the same
    automaton as `runner2.scan` but records every brace-balanced chunk it
    captures, whether or not the chunk parses as JSON. -/
structure CapSt where
  spans : List (List Char)
  start : Option Nat
  depth : Int
  in_str : Bool
  esc : Bool

/-- The scanner of `runner2.scan` with the `json.loads` call replaced by plain
    collection of the captured chunk. -/
def scanSpans (text : List Char) : Nat → CapSt → List Char → CapSt
  | _, s, [] => s
  | i, s, ch :: rest =>
    match s.start with
    | none =>
      if ch = lbrace then
        scanSpans text (i + 1) { s with start := some i, depth := 1, in_str := false, esc := false } rest
      else scanSpans text (i + 1) s rest
    | some st =>
      if s.in_str then
        if s.esc then scanSpans text (i + 1) { s with esc := false } rest
        else if ch = bslash then scanSpans text (i + 1) { s with esc := true } rest
        else if ch = qmark then scanSpans text (i + 1) { s with in_str := false } rest
        else scanSpans text (i + 1) s rest
      else if ch = qmark then scanSpans text (i + 1) { s with in_str := true } rest
      else if ch = lbrace then scanSpans text (i + 1) { s with depth := s.depth + 1 } rest
      else if ch = rbrace then
        let d := s.depth - 1
        if d = 0 then
          let chunk := (text.drop st).take (i + 1 - st)
          scanSpans text (i + 1)
            { s with depth := d, start := none, spans := s.spans ++ [chunk] } rest
        else scanSpans text (i + 1) { s with depth := d } rest
      else scanSpans text (i + 1) s rest

/-- All brace-balanced spans the scanner captures in a text. -/
def capturedSpansL (text : List Char) : List (List Char) :=
  (scanSpans text 0 ⟨[], none, 0, false, false⟩ text).spans

/-- State of the span automaton used to characterise a single captured span:
    depth and string/escape flags only. -/
structure CaptSt where
  depth : Int
  in_str : Bool
  esc : Bool

/-- One step of the in-span automaton (the `start is not None` branch of the
    scanner, without the close-of-span bookkeeping). -/
def capStep (st : CaptSt) (ch : Char) : CaptSt :=
  if st.in_str then
    if st.esc then { st with esc := false }
    else if ch = bslash then { st with esc := true }
    else if ch = qmark then { st with in_str := false }
    else st
  else if ch = qmark then { st with in_str := true }
  else if ch = lbrace then { st with depth := st.depth + 1 }
  else if ch = rbrace then { st with depth := st.depth - 1 }
  else st

/-- Index (relative to the current position) of the first character at which the
    span automaton closes its span: an unquoted closing brace at depth 1. -/
def closesAt : CaptSt → List Char → Option Nat
  | _, [] => none
  | st, ch :: rest =>
    if st.in_str = false ∧ ch = rbrace ∧ st.depth = 1 then some 0
    else (closesAt (capStep st ch) rest).map (· + 1)

/-- A top-level object span as the scanner sees it: it begins with `{` and the
    span automaton first returns to depth 0 exactly at its last character. -/
def spanOkB (sp : List Char) : Bool :=
  match sp with
  | [] => false
  | c :: body =>
    c = lbrace && !body.isEmpty && closesAt ⟨1, false, false⟩ body == some (body.length - 1)

example : spanOkB "\x7b\"a\":1\x7d".toList = true := by rfl

example : spanOkB "\x7b\"b\":\x7b\"c\":2\x7d\x7d".toList = true := by rfl

example : spanOkB "\x7b\"x\":1".toList = false := by rfl

example : runner2.extract_json_objects "foo \x7b\"a\":1\x7d bar \x7b\"b\":\x7b\"c\":2\x7d\x7d baz"
    = [Json.obj [("a", Json.num 1 1)], Json.obj [("b", Json.obj [("c", Json.num 2 1)])]] := by rfl

example : runner2.extract_json_objects "\x7b\"x\":1" = [] := by rfl

/-- One unfold of `runner2.scan` outside a span. -/
theorem scan2_step_idle (text : List Char) (o : List Json) (d : Int) (b e : Bool) (i : Nat)
    (ch : Char) (rest : List Char) :
    runner2.scan text i ⟨o, none, d, b, e⟩ (ch :: rest)
      = if ch = lbrace then runner2.scan text (i + 1) ⟨o, some i, 1, false, false⟩ rest
        else runner2.scan text (i + 1) ⟨o, none, d, b, e⟩ rest := rfl

/-- One unfold of `runner2.scan` inside a span. -/
theorem scan2_step_cap (text : List Char) (o : List Json) (st : Nat) (d : Int) (b e : Bool)
    (i : Nat) (ch : Char) (rest : List Char) :
    runner2.scan text i ⟨o, some st, d, b, e⟩ (ch :: rest)
      = if b then
          if e then runner2.scan text (i + 1) ⟨o, some st, d, b, false⟩ rest
          else if ch = bslash then runner2.scan text (i + 1) ⟨o, some st, d, b, true⟩ rest
          else if ch = qmark then runner2.scan text (i + 1) ⟨o, some st, d, false, e⟩ rest
          else runner2.scan text (i + 1) ⟨o, some st, d, b, e⟩ rest
        else if ch = qmark then runner2.scan text (i + 1) ⟨o, some st, d, true, e⟩ rest
        else if ch = lbrace then runner2.scan text (i + 1) ⟨o, some st, d + 1, b, e⟩ rest
        else if ch = rbrace then
          if d - 1 = 0 then
            runner2.scan text (i + 1)
              ⟨(match json_loadsL ((text.drop st).take (i + 1 - st)) with
                 | some v => o ++ [v]
                 | none => o), none, d - 1, b, e⟩ rest
          else runner2.scan text (i + 1) ⟨o, some st, d - 1, b, e⟩ rest
        else runner2.scan text (i + 1) ⟨o, some st, d, b, e⟩ rest := rfl

/-- One unfold of `runner3.scan` outside a span. -/
theorem scan3_step_idle (text : List Char) (o : List Json) (d : Int) (b e : Bool) (i : Nat)
    (ch : Char) (rest : List Char) :
    runner3.scan text i ⟨o, none, d, b, e⟩ (ch :: rest)
      = if ch = lbrace then runner3.scan text (i + 1) ⟨o, some i, 1, b, e⟩ rest
        else runner3.scan text (i + 1) ⟨o, none, d, b, e⟩ rest := rfl

/-- One unfold of `runner3.scan` inside a span. -/
theorem scan3_step_cap (text : List Char) (o : List Json) (st : Nat) (d : Int) (b e : Bool)
    (i : Nat) (ch : Char) (rest : List Char) :
    runner3.scan text i ⟨o, some st, d, b, e⟩ (ch :: rest)
      = if b then
          if e then runner3.scan text (i + 1) ⟨o, some st, d, b, false⟩ rest
          else if ch = bslash then runner3.scan text (i + 1) ⟨o, some st, d, b, true⟩ rest
          else if ch = qmark then runner3.scan text (i + 1) ⟨o, some st, d, false, e⟩ rest
          else runner3.scan text (i + 1) ⟨o, some st, d, b, e⟩ rest
        else if ch = qmark then runner3.scan text (i + 1) ⟨o, some st, d, true, e⟩ rest
        else if ch = lbrace then runner3.scan text (i + 1) ⟨o, some st, d + 1, b, e⟩ rest
        else if ch = rbrace then
          if d - 1 = 0 then
            runner3.scan text (i + 1)
              ⟨(match json_loadsL ((text.drop st).take (i + 1 - st)) with
                 | some v => o ++ [v]
                 | none => o), none, d - 1, b, e⟩ rest
          else runner3.scan text (i + 1) ⟨o, some st, d - 1, b, e⟩ rest
        else runner3.scan text (i + 1) ⟨o, some st, d, b, e⟩ rest := rfl

/-- One unfold of `scanSpans` outside a span. -/
theorem scanSpans_step_idle (text : List Char) (o : List (List Char)) (d : Int) (b e : Bool)
    (i : Nat) (ch : Char) (rest : List Char) :
    scanSpans text i ⟨o, none, d, b, e⟩ (ch :: rest)
      = if ch = lbrace then scanSpans text (i + 1) ⟨o, some i, 1, false, false⟩ rest
        else scanSpans text (i + 1) ⟨o, none, d, b, e⟩ rest := rfl

/-- One unfold of `scanSpans` inside a span. -/
theorem scanSpans_step_cap (text : List Char) (o : List (List Char)) (st : Nat) (d : Int)
    (b e : Bool) (i : Nat) (ch : Char) (rest : List Char) :
    scanSpans text i ⟨o, some st, d, b, e⟩ (ch :: rest)
      = if b then
          if e then scanSpans text (i + 1) ⟨o, some st, d, b, false⟩ rest
          else if ch = bslash then scanSpans text (i + 1) ⟨o, some st, d, b, true⟩ rest
          else if ch = qmark then scanSpans text (i + 1) ⟨o, some st, d, false, e⟩ rest
          else scanSpans text (i + 1) ⟨o, some st, d, b, e⟩ rest
        else if ch = qmark then scanSpans text (i + 1) ⟨o, some st, d, true, e⟩ rest
        else if ch = lbrace then scanSpans text (i + 1) ⟨o, some st, d + 1, b, e⟩ rest
        else if ch = rbrace then
          if d - 1 = 0 then
            scanSpans text (i + 1)
              ⟨o ++ [(text.drop st).take (i + 1 - st)], none, d - 1, b, e⟩ rest
          else scanSpans text (i + 1) ⟨o, some st, d - 1, b, e⟩ rest
        else scanSpans text (i + 1) ⟨o, some st, d, b, e⟩ rest := rfl

/-- The objects collected by runner2's scanner are exactly the parseable ones
    among the spans the same automaton captures, in order. -/
theorem scan_objs_eq (text : List Char) (rest : List Char) :
    ∀ (i : Nat) (spans : List (List Char)) (start : Option Nat) (depth : Int) (b e : Bool),
    (runner2.scan text i ⟨spans.filterMap json_loadsL, start, depth, b, e⟩ rest).objs
      = (scanSpans text i ⟨spans, start, depth, b, e⟩ rest).spans.filterMap json_loadsL := by
  induction rest with
  | nil => intro i spans start depth b e; rfl
  | cons ch rest ih =>
    intro i spans start depth b e
    cases start with
    | none => rw [scan2_step_idle, scanSpans_step_idle]; split_ifs <;> exact ih ..
    | some st =>
      rw [scan2_step_cap, scanSpans_step_cap]
      split_ifs <;>
        first
          | exact ih ..
          | (have h' := ih (i + 1) (spans ++ [(text.drop st).take (i + 1 - st)]) none
              (depth - 1) b e
             rw [List.filterMap_append] at h'
             cases hL : json_loadsL ((text.drop st).take (i + 1 - st)) <;>
               simpa [hL] using h')

/-- runner2's extractor returns exactly the captured brace-balanced spans that
    parse as JSON, dropping the unparseable ones. -/
theorem extractL_eq_filterMap (text : List Char) :
    runner2.extractL text = (capturedSpansL text).filterMap json_loadsL := by
  have h := scan_objs_eq text text 0 [] none 0 false false
  simpa [runner2.extractL, capturedSpansL] using h

/-- runner3's scanner agrees with runner2's whenever the string/escape flags
    satisfy the reachability invariants (escape only inside strings, and outside
    a span the scanner is never inside a string). -/
theorem scan3_eq_scan2 (text : List Char) (rest : List Char) :
    ∀ (i : Nat) (s : ScanSt), (s.in_str = false → s.esc = false) →
    (s.start = none → s.in_str = false) →
    runner3.scan text i s rest = runner2.scan text i s rest := by
  induction rest with
  | nil => intro i s _ _; rfl
  | cons ch rest ih =>
    intro i s hIE hSI
    obtain ⟨objs, start, depth, b, e⟩ := s
    cases start with
    | none =>
      have hb : b = false := hSI rfl
      have he : e = false := by subst hb; exact hIE rfl
      subst hb; subst he
      rw [scan3_step_idle, scan2_step_idle]
      split_ifs
      · exact ih (i + 1) ⟨objs, some i, 1, false, false⟩ (fun _ => rfl) (by intro h; cases h)
      · exact ih (i + 1) ⟨objs, none, depth, false, false⟩ (fun _ => rfl) (fun _ => rfl)
    | some st =>
      have hIE' : b = false → e = false := hIE
      rw [scan3_step_cap, scan2_step_cap]
      split_ifs <;>
        refine ih (i + 1) _ ?_ ?_ <;>
        · intro h; simp_all

/-- The two extractors agree on every input. -/
theorem extractL3_eq_extractL2 (text : List Char) :
    runner3.extractL text = runner2.extractL text := by
  unfold runner3.extractL runner2.extractL
  rw [scan3_eq_scan2 text text 0 ⟨[], none, 0, false, false⟩ (fun _ => rfl) (fun _ => rfl)]

/-- Outside a span the scanner ignores text that contains no opening brace. -/
theorem scanSpans_skip (text : List Char) (n : List Char) (hn : ∀ c ∈ n, c ≠ lbrace) :
    ∀ (rest : List Char) (i : Nat) (o : List (List Char)) (d : Int) (b e : Bool),
    scanSpans text i ⟨o, none, d, b, e⟩ (n ++ rest)
      = scanSpans text (i + n.length) ⟨o, none, d, b, e⟩ rest := by
  induction n with
  | nil => intro rest i o d b e; simp
  | cons c n ih =>
    intro rest i o d b e
    have hc : c ≠ lbrace := hn c (by simp)
    rw [List.cons_append, scanSpans_step_idle, if_neg hc,
      ih (fun x hx => hn x (by simp [hx])) rest (i + 1) o d b e]
    have harith : i + 1 + n.length = i + (c :: n).length := by simp; omega
    rw [harith]

/-- The in-span automaton preserves the escape invariant. -/
theorem capStep_inv (st : CaptSt) (ch : Char) (h : st.in_str = false → st.esc = false) :
    (capStep st ch).in_str = false → (capStep st ch).esc = false := by
  unfold capStep
  split_ifs <;> intro h2 <;> simp_all

/-- While inside a span, one scanner step that does not close the span follows
    the in-span automaton. -/
theorem scanSpans_capStep_eq (text : List Char) (i stp : Nat) (o : List (List Char))
    (st : CaptSt) (ch : Char) (l : List Char)
    (hnc : ¬(st.in_str = false ∧ ch = rbrace ∧ st.depth = 1)) :
    scanSpans text i ⟨o, some stp, st.depth, st.in_str, st.esc⟩ (ch :: l)
      = scanSpans text (i + 1)
          ⟨o, some stp, (capStep st ch).depth, (capStep st ch).in_str, (capStep st ch).esc⟩ l := by
  rw [scanSpans_step_cap]
  unfold capStep
  split_ifs with hb he h1 h2 h3 h4 h5 <;>
    first
      | rfl
      | (exfalso
         apply hnc
         refine ⟨by simp_all, by assumption, by omega⟩)

/-- A span whose automaton first closes exactly at its last character is consumed
    whole: the scanner captures precisely that slice of the text and returns to
    the idle state. -/
theorem scanSpans_span (text : List Char) : ∀ (body : List Char) (st : CaptSt),
    (st.in_str = false → st.esc = false) →
    closesAt st body = some (body.length - 1) →
    ∀ (rest : List Char) (i stp : Nat) (o : List (List Char)),
    scanSpans text i ⟨o, some stp, st.depth, st.in_str, st.esc⟩ (body ++ rest)
      = scanSpans text (i + body.length)
          ⟨o ++ [(text.drop stp).take (i + body.length - stp)], none, 0, false, false⟩ rest := by
  intro body
  induction body with
  | nil => intro st _ hc; simp [closesAt] at hc
  | cons ch body ih =>
    intro st hinv hc rest i stp o
    by_cases hcond : st.in_str = false ∧ ch = rbrace ∧ st.depth = 1
    · rw [closesAt, if_pos hcond] at hc
      obtain ⟨h1, h2, h3⟩ := hcond
      have hb0 : body = [] := by
        have h' := Option.some.inj hc
        simp at h'
        exact List.eq_nil_of_length_eq_zero h'.symm
      subst hb0
      have he : st.esc = false := hinv h1
      rw [List.cons_append, List.nil_append, scanSpans_step_cap,
        if_neg (by simp [h1]), if_neg (by rw [h2]; decide), if_neg (by rw [h2]; decide),
        if_pos h2, if_pos (by rw [h3]; decide)]
      rw [h1, he, h3]
      norm_num
    · rw [closesAt, if_neg hcond] at hc
      have hne : body ≠ [] := by
        intro h0
        rw [h0] at hc
        simp [closesAt] at hc
      have hc' : closesAt (capStep st ch) body = some (body.length - 1) := by
        rcases hmap : closesAt (capStep st ch) body with _ | k
        · rw [hmap] at hc; simp at hc
        · rw [hmap] at hc
          simp at hc
          have hlen : 1 ≤ body.length := by
            cases body with
            | nil => exact absurd rfl hne
            | cons _ _ => simp
          congr 1
          omega
      rw [List.cons_append, scanSpans_capStep_eq text i stp o st ch (body ++ rest) hcond]
      rw [ih (capStep st ch) (capStep_inv st ch hinv) hc' rest (i + 1) stp o]
      have harith : i + 1 + body.length = i + (ch :: body).length := by simp; omega
      rw [harith]

/-- A well-formed object span entered from the idle state is captured exactly. -/
theorem scanSpans_spanOk (text : List Char) (sp : List Char) (h : spanOkB sp = true) :
    ∀ (rest : List Char) (i : Nat) (o : List (List Char)) (d : Int) (b e : Bool),
    scanSpans text i ⟨o, none, d, b, e⟩ (sp ++ rest)
      = scanSpans text (i + sp.length)
          ⟨o ++ [(text.drop i).take sp.length], none, 0, false, false⟩ rest := by
  intro rest i o d b e
  cases sp with
  | nil => simp [spanOkB] at h
  | cons c body =>
    rw [spanOkB] at h
    simp only [Bool.and_eq_true, beq_iff_eq, decide_eq_true_eq, Bool.not_eq_true'] at h
    obtain ⟨⟨hcl, hbne⟩, hclose⟩ := h
    subst hcl
    rw [List.cons_append, scanSpans_step_idle, if_pos rfl]
    have := scanSpans_span text body ⟨1, false, false⟩ (fun _ => rfl) hclose rest (i + 1) i o
    simp only at this
    rw [this]
    have harith : i + 1 + body.length = i + (lbrace :: body).length := by simp; omega
    rw [harith]
    have harith2 : i + (lbrace :: body).length - i = (lbrace :: body).length := by omega
    rw [harith2]

/-- Flatten an interleaving of narration/span segments. -/
def flatSegs : List (List Char × List Char) → List Char
  | [] => []
  | p :: rest => p.1 ++ (p.2 ++ flatSegs rest)

/-- On a text that interleaves brace-free narration with well-formed object
    spans, the scanner captures exactly the spans, in left-to-right order. -/
theorem scanSpans_interleaved :
    ∀ (segs : List (List Char × List Char)) (tail pre : List Char)
      (o : List (List Char)) (d : Int) (b e : Bool),
    (∀ p ∈ segs, (∀ c ∈ p.1, c ≠ lbrace) ∧ spanOkB p.2 = true) →
    (∀ c ∈ tail, c ≠ lbrace) →
    (scanSpans (pre ++ (flatSegs segs ++ tail)) pre.length
        ⟨o, none, d, b, e⟩ (flatSegs segs ++ tail)).spans = o ++ segs.map (·.2) := by
  intro segs
  induction segs with
  | nil =>
    intro tail pre o d b e _ htail
    have h := scanSpans_skip (pre ++ (flatSegs [] ++ tail)) tail htail [] pre.length o d b e
    simp only [flatSegs, List.map_nil, List.nil_append, List.append_nil] at h ⊢
    rw [h]
    simp [scanSpans]
  | cons p segs ih =>
    intro tail pre o d b e hsegs htail
    obtain ⟨n, sp⟩ := p
    have hn : ∀ c ∈ n, c ≠ lbrace := (hsegs (n, sp) (by simp)).1
    have hsp : spanOkB sp = true := (hsegs (n, sp) (by simp)).2
    have hflat : flatSegs ((n, sp) :: segs) = n ++ (sp ++ flatSegs segs) := rfl
    set text := pre ++ (flatSegs ((n, sp) :: segs) ++ tail) with htext
    rw [hflat]
    have hstep : (n ++ (sp ++ flatSegs segs)) ++ tail = n ++ (sp ++ (flatSegs segs ++ tail)) := by
      simp [List.append_assoc]
    rw [hstep]
    rw [scanSpans_skip text n hn (sp ++ (flatSegs segs ++ tail)) pre.length o d b e]
    rw [scanSpans_spanOk text sp hsp (flatSegs segs ++ tail) (pre.length + n.length) o d b e]
    have hslice : (text.drop (pre.length + n.length)).take sp.length = sp := by
      have h2 : text = (pre ++ n) ++ (sp ++ (flatSegs segs ++ tail)) := by
        rw [htext, hflat]; simp [List.append_assoc]
      rw [h2]
      have hlen : pre.length + n.length = (pre ++ n).length := by simp
      rw [hlen, List.drop_left, List.take_left]
    rw [hslice]
    have hsegs' : ∀ q ∈ segs, (∀ c ∈ q.1, c ≠ lbrace) ∧ spanOkB q.2 = true := by
      intro q hq; exact hsegs q (by simp [hq])
    have htext' : text = (pre ++ n ++ sp) ++ (flatSegs segs ++ tail) := by
      rw [htext, hflat]; simp [List.append_assoc]
    have hlen' : pre.length + n.length + sp.length = (pre ++ n ++ sp).length := by
      simp; omega
    rw [hlen']
    have hgoal := ih tail (pre ++ n ++ sp) (o ++ [sp]) 0 false false hsegs' htail
    rw [← htext'] at hgoal
    rw [hgoal]
    simp

/-- A `filterMap` whose function succeeds on every element keeps the length. -/
theorem filterMap_length_of_isSome {α β : Type} (f : α → Option β) :
    ∀ (l : List α), (∀ x ∈ l, (f x).isSome = true) → (l.filterMap f).length = l.length := by
  intro l
  induction l with
  | nil => intro _; rfl
  | cons x l ih =>
    intro h
    have hx := h x (by simp)
    rcases hfx : f x with _ | v
    · rw [hfx] at hx; simp at hx
    · simp only [List.filterMap_cons, hfx]
      simp [ih (fun y hy => h y (by simp [hy]))]

/-- runner2's extractor on an interleaving of brace-free narration and
    well-formed object spans returns exactly the parses of the spans, in order. -/
theorem extractL_interleaved (segs : List (List Char × List Char)) (tail : List Char)
    (hsegs : ∀ p ∈ segs, (∀ c ∈ p.1, c ≠ lbrace) ∧ spanOkB p.2 = true)
    (htail : ∀ c ∈ tail, c ≠ lbrace) :
    runner2.extractL (flatSegs segs ++ tail) = (segs.map (·.2)).filterMap json_loadsL := by
  rw [extractL_eq_filterMap]
  have h := scanSpans_interleaved segs tail [] [] 0 false false hsegs htail
  simp only [List.nil_append, List.length_nil] at h
  unfold capturedSpansL
  rw [h]

namespace runner2

/-- The character loop of runner2.py's `extract_json_objects` with `json.loads`
    modelled exception-aware: `except json.JSONDecodeError` drops a span only
    on a decode error; the RecursionError of a span nested beyond the recursion
    limit is not caught and aborts the extraction. -/
def scanE (limit : Nat) (text : List Char) : Nat → ScanSt → List Char → Except PyExn (List Json)
  | _, s, [] => Except.ok s.objs
  | i, s, ch :: rest =>
    match s.start with
    | none =>
      if ch = lbrace then
        scanE limit text (i + 1)
          { s with start := some i, depth := 1, in_str := false, esc := false } rest
      else scanE limit text (i + 1) s rest
    | some st =>
      if s.in_str then
        if s.esc then scanE limit text (i + 1) { s with esc := false } rest
        else if ch = bslash then scanE limit text (i + 1) { s with esc := true } rest
        else if ch = qmark then scanE limit text (i + 1) { s with in_str := false } rest
        else scanE limit text (i + 1) s rest
      else if ch = qmark then scanE limit text (i + 1) { s with in_str := true } rest
      else if ch = lbrace then scanE limit text (i + 1) { s with depth := s.depth + 1 } rest
      else if ch = rbrace then
        let d := s.depth - 1
        if d = 0 then
          let chunk := (text.drop st).take (i + 1 - st)
          match json_loads_excL limit chunk with
          | Except.ok v =>
            scanE limit text (i + 1)
              { s with depth := d, start := none, objs := s.objs ++ [v] } rest
          | Except.error PyErr.decodeError =>
            scanE limit text (i + 1) { s with depth := d, start := none } rest
          | Except.error PyErr.recursionError => Except.error PyExn.recursionError
        else scanE limit text (i + 1) { s with depth := d } rest
      else scanE limit text (i + 1) s rest

/-- runner2.py `extract_json_objects` with the RecursionError path: the
    extracted objects, or the RecursionError raised by a captured span nested
    beyond the recursion limit. -/
def extract_exc (limit : Nat) (text : List Char) : Except PyExn (List Json) :=
  scanE limit text 0 ⟨[], none, 0, false, false⟩ text

end runner2

namespace runner3

/-- The character loop of runner3.py's `extract_json_objects` with `json.loads`
    modelled exception-aware: the bare `except:` drops a span on ANY exception,
    RecursionError included, so this loop is total. -/
def scanE (limit : Nat) (text : List Char) : Nat → ScanSt → List Char → ScanSt
  | _, s, [] => s
  | i, s, ch :: rest =>
    match s.start with
    | none =>
      if ch = lbrace then
        scanE limit text (i + 1) { s with start := some i, depth := 1 } rest
      else scanE limit text (i + 1) s rest
    | some st =>
      if s.in_str then
        if s.esc then scanE limit text (i + 1) { s with esc := false } rest
        else if ch = bslash then scanE limit text (i + 1) { s with esc := true } rest
        else if ch = qmark then scanE limit text (i + 1) { s with in_str := false } rest
        else scanE limit text (i + 1) s rest
      else if ch = qmark then scanE limit text (i + 1) { s with in_str := true } rest
      else if ch = lbrace then scanE limit text (i + 1) { s with depth := s.depth + 1 } rest
      else if ch = rbrace then
        let d := s.depth - 1
        if d = 0 then
          let chunk := (text.drop st).take (i + 1 - st)
          scanE limit text (i + 1)
            { s with depth := d, start := none,
                     objs := match json_loads_excL limit chunk with
                             | Except.ok v => s.objs ++ [v]
                             | Except.error _ => s.objs } rest
        else scanE limit text (i + 1) { s with depth := d } rest
      else scanE limit text (i + 1) s rest

/-- runner3.py `extract_json_objects` with the recursion limit: total, spans
    whose parse raises anything are silently dropped. -/
def extract_excL (limit : Nat) (text : List Char) : List Json :=
  (scanE limit text 0 ⟨[], none, 0, false, false⟩ text).objs

end runner3

/-- The effect of runner2's span handling on a list of captured spans: decode
    errors drop the span, a recursion error propagates and leaves the remaining
    spans unprocessed. -/
def collectE (limit : Nat) : List (List Char) → Except PyExn (List Json)
  | [] => Except.ok []
  | sp :: rest =>
    match json_loads_excL limit sp with
    | Except.ok v => (collectE limit rest).map (v :: ·)
    | Except.error PyErr.decodeError => collectE limit rest
    | Except.error PyErr.recursionError => Except.error PyExn.recursionError

/-- One unfold of `runner2.scanE` outside a span. -/
theorem scanE_step_idle (limit : Nat) (text : List Char) (o : List Json) (d : Int) (b e : Bool)
    (i : Nat) (ch : Char) (rest : List Char) :
    runner2.scanE limit text i ⟨o, none, d, b, e⟩ (ch :: rest)
      = if ch = lbrace then runner2.scanE limit text (i + 1) ⟨o, some i, 1, false, false⟩ rest
        else runner2.scanE limit text (i + 1) ⟨o, none, d, b, e⟩ rest := rfl

/-- One unfold of `runner2.scanE` inside a span. -/
theorem scanE_step_cap (limit : Nat) (text : List Char) (o : List Json) (st : Nat) (d : Int)
    (b e : Bool) (i : Nat) (ch : Char) (rest : List Char) :
    runner2.scanE limit text i ⟨o, some st, d, b, e⟩ (ch :: rest)
      = if b then
          if e then runner2.scanE limit text (i + 1) ⟨o, some st, d, b, false⟩ rest
          else if ch = bslash then runner2.scanE limit text (i + 1) ⟨o, some st, d, b, true⟩ rest
          else if ch = qmark then runner2.scanE limit text (i + 1) ⟨o, some st, d, false, e⟩ rest
          else runner2.scanE limit text (i + 1) ⟨o, some st, d, b, e⟩ rest
        else if ch = qmark then runner2.scanE limit text (i + 1) ⟨o, some st, d, true, e⟩ rest
        else if ch = lbrace then runner2.scanE limit text (i + 1) ⟨o, some st, d + 1, b, e⟩ rest
        else if ch = rbrace then
          if d - 1 = 0 then
            match json_loads_excL limit ((text.drop st).take (i + 1 - st)) with
            | Except.ok v =>
              runner2.scanE limit text (i + 1) ⟨o ++ [v], none, d - 1, b, e⟩ rest
            | Except.error PyErr.decodeError =>
              runner2.scanE limit text (i + 1) ⟨o, none, d - 1, b, e⟩ rest
            | Except.error PyErr.recursionError => Except.error PyExn.recursionError
          else runner2.scanE limit text (i + 1) ⟨o, some st, d - 1, b, e⟩ rest
        else runner2.scanE limit text (i + 1) ⟨o, some st, d, b, e⟩ rest := rfl

/-- One unfold of `runner3.scanE` outside a span. -/
theorem scan3E_step_idle (limit : Nat) (text : List Char) (o : List Json) (d : Int) (b e : Bool)
    (i : Nat) (ch : Char) (rest : List Char) :
    runner3.scanE limit text i ⟨o, none, d, b, e⟩ (ch :: rest)
      = if ch = lbrace then runner3.scanE limit text (i + 1) ⟨o, some i, 1, b, e⟩ rest
        else runner3.scanE limit text (i + 1) ⟨o, none, d, b, e⟩ rest := rfl

/-- One unfold of `runner3.scanE` inside a span. -/
theorem scan3E_step_cap (limit : Nat) (text : List Char) (o : List Json) (st : Nat) (d : Int)
    (b e : Bool) (i : Nat) (ch : Char) (rest : List Char) :
    runner3.scanE limit text i ⟨o, some st, d, b, e⟩ (ch :: rest)
      = if b then
          if e then runner3.scanE limit text (i + 1) ⟨o, some st, d, b, false⟩ rest
          else if ch = bslash then runner3.scanE limit text (i + 1) ⟨o, some st, d, b, true⟩ rest
          else if ch = qmark then runner3.scanE limit text (i + 1) ⟨o, some st, d, false, e⟩ rest
          else runner3.scanE limit text (i + 1) ⟨o, some st, d, b, e⟩ rest
        else if ch = qmark then runner3.scanE limit text (i + 1) ⟨o, some st, d, true, e⟩ rest
        else if ch = lbrace then runner3.scanE limit text (i + 1) ⟨o, some st, d + 1, b, e⟩ rest
        else if ch = rbrace then
          if d - 1 = 0 then
            runner3.scanE limit text (i + 1)
              ⟨(match json_loads_excL limit ((text.drop st).take (i + 1 - st)) with
                 | Except.ok v => o ++ [v]
                 | Except.error _ => o), none, d - 1, b, e⟩ rest
          else runner3.scanE limit text (i + 1) ⟨o, some st, d - 1, b, e⟩ rest
        else runner3.scanE limit text (i + 1) ⟨o, some st, d, b, e⟩ rest := rfl

/-- The span scanner is an accumulator machine: spans already collected pass
    through unchanged. -/
theorem scanSpans_acc (text : List Char) :
    ∀ (rest : List Char) (i : Nat) (o₁ o₂ : List (List Char)) (start : Option Nat) (d : Int)
      (b e : Bool),
    (scanSpans text i ⟨o₁ ++ o₂, start, d, b, e⟩ rest).spans
      = o₁ ++ (scanSpans text i ⟨o₂, start, d, b, e⟩ rest).spans := by
  intro rest
  induction rest with
  | nil => intro i o₁ o₂ start d b e; rfl
  | cons ch rest ih =>
    intro i o₁ o₂ start d b e
    cases start with
    | none =>
      rw [scanSpans_step_idle, scanSpans_step_idle]
      split_ifs <;> exact ih ..
    | some st =>
      rw [scanSpans_step_cap, scanSpans_step_cap]
      split_ifs <;>
        first
          | exact ih ..
          | (rw [List.append_assoc]; exact ih ..)

/-- runner2's exception-aware scan is the span-wise `collectE` over the spans
    the same automaton captures, prefixed by the objects already collected. -/
theorem scanE_eq_collect (limit : Nat) (text : List Char) :
    ∀ (rest : List Char) (i : Nat) (o : List Json) (start : Option Nat) (d : Int) (b e : Bool),
    runner2.scanE limit text i ⟨o, start, d, b, e⟩ rest
      = (collectE limit (scanSpans text i ⟨[], start, d, b, e⟩ rest).spans).map (o ++ ·) := by
  intro rest
  induction rest with
  | nil =>
    intro i o start d b e
    simp [runner2.scanE, scanSpans, collectE, Except.map]
  | cons ch rest ih =>
    intro i o start d b e
    cases start with
    | none =>
      rw [scanE_step_idle, scanSpans_step_idle]
      split_ifs <;> exact ih ..
    | some st =>
      rw [scanE_step_cap, scanSpans_step_cap]
      split_ifs with h1 h2 h3 h4 h5 h6 h7
      case pos => exact ih ..
      case pos => exact ih ..
      case pos => exact ih ..
      case neg => exact ih ..
      case pos => exact ih ..
      case pos => exact ih ..
      case pos =>
        have hacc := scanSpans_acc text rest (i + 1)
          [(text.drop st).take (i + 1 - st)] [] none (d - 1) b e
        simp only [List.append_nil] at hacc
        simp only [List.nil_append]
        rw [hacc, List.singleton_append]
        rcases hj : json_loads_excL limit ((text.drop st).take (i + 1 - st)) with e' | v
        · cases e' with
          | decodeError =>
            rw [show collectE limit ((text.drop st).take (i + 1 - st)
                :: (scanSpans text (i + 1) ⟨[], none, d - 1, b, e⟩ rest).spans)
              = collectE limit ((scanSpans text (i + 1) ⟨[], none, d - 1, b, e⟩ rest).spans)
              from by rw [collectE, hj]]
            exact ih ..
          | recursionError =>
            rw [show collectE limit ((text.drop st).take (i + 1 - st)
                :: (scanSpans text (i + 1) ⟨[], none, d - 1, b, e⟩ rest).spans)
              = Except.error PyExn.recursionError from by rw [collectE, hj]]
            rfl
        · rw [show collectE limit ((text.drop st).take (i + 1 - st)
              :: (scanSpans text (i + 1) ⟨[], none, d - 1, b, e⟩ rest).spans)
            = (collectE limit
                ((scanSpans text (i + 1) ⟨[], none, d - 1, b, e⟩ rest).spans)).map (v :: ·)
            from by rw [collectE, hj]]
          show runner2.scanE limit text (i + 1) ⟨o ++ [v], none, d - 1, b, e⟩ rest
            = ((collectE limit
                ((scanSpans text (i + 1) ⟨[], none, d - 1, b, e⟩ rest).spans)).map
                  (v :: ·)).map (o ++ ·)
          rw [ih ..]
          cases collectE limit ((scanSpans text (i + 1) ⟨[], none, d - 1, b, e⟩ rest).spans) with
          | error err => rfl
          | ok l => simp [Except.map]
      case neg => exact ih ..
      case neg => exact ih ..

/-- runner2's extractor with the RecursionError path is `collectE` over the
    captured spans: parse-error spans are dropped, a too-deep span aborts. -/
theorem extract_exc_eq (limit : Nat) (text : List Char) :
    runner2.extract_exc limit text = collectE limit (capturedSpansL text) := by
  have h := scanE_eq_collect limit text text 0 [] none 0 false false
  unfold runner2.extract_exc capturedSpansL
  rw [h]
  cases collectE limit (scanSpans text 0 ⟨[], none, 0, false, false⟩ text).spans with
  | error err => rfl
  | ok l => simp [Except.map]

/-- runner3's exception-aware scan collects exactly the spans whose parse
    succeeds under the recursion limit (flags invariants as in
    `scan3_eq_scan2`). -/
theorem scan3E_objs_eq (limit : Nat) (text : List Char) :
    ∀ (rest : List Char) (i : Nat) (spans : List (List Char)) (start : Option Nat) (d : Int)
      (b e : Bool), (b = false → e = false) → (start = none → b = false) →
    (runner3.scanE limit text i
        ⟨spans.filterMap (fun sp => (json_loads_excL limit sp).toOption), start, d, b, e⟩
        rest).objs
      = ((scanSpans text i ⟨spans, start, d, b, e⟩ rest).spans).filterMap
          (fun sp => (json_loads_excL limit sp).toOption) := by
  intro rest
  induction rest with
  | nil => intro i spans start d b e _ _; rfl
  | cons ch rest ih =>
    intro i spans start d b e hIE hSI
    cases start with
    | none =>
      have hb : b = false := hSI rfl
      have he : e = false := by subst hb; exact hIE rfl
      subst hb; subst he
      rw [scan3E_step_idle, scanSpans_step_idle]
      split_ifs
      · exact ih (i + 1) spans (some i) 1 false false (fun _ => rfl) (by intro h; cases h)
      · exact ih (i + 1) spans none d false false (fun _ => rfl) (fun _ => rfl)
    | some st =>
      rw [scan3E_step_cap, scanSpans_step_cap]
      split_ifs with h1 h2 h3 h4 h5 h6 h7
      case pos =>
        exact ih (i + 1) spans (some st) d b false (fun _ => rfl)
          (fun h => Option.noConfusion h)
      case pos =>
        exact ih (i + 1) spans (some st) d b true
          (fun hb => Bool.noConfusion (hb.symm.trans h1))
          (fun h => Option.noConfusion h)
      case pos =>
        exact ih (i + 1) spans (some st) d false e
          (fun _ => Bool.eq_false_iff.mpr h2)
          (fun h => Option.noConfusion h)
      case neg =>
        exact ih (i + 1) spans (some st) d b e hIE (fun h => Option.noConfusion h)
      case pos =>
        exact ih (i + 1) spans (some st) d true e
          (fun hb => Bool.noConfusion hb)
          (fun h => Option.noConfusion h)
      case pos =>
        exact ih (i + 1) spans (some st) (d + 1) b e hIE (fun h => Option.noConfusion h)
      case pos =>
        have h' := ih (i + 1) (spans ++ [(text.drop st).take (i + 1 - st)]) none
          (d - 1) b e hIE (fun _ => Bool.eq_false_iff.mpr h1)
        rw [List.filterMap_append] at h'
        rcases hL : json_loads_excL limit ((text.drop st).take (i + 1 - st)) with e' | v
        · rw [show List.filterMap (fun sp => (json_loads_excL limit sp).toOption)
              [(text.drop st).take (i + 1 - st)] = [] from by
                simp [hL, Except.toOption],
            List.append_nil] at h'
          exact h'
        · rw [show List.filterMap (fun sp => (json_loads_excL limit sp).toOption)
              [(text.drop st).take (i + 1 - st)] = [v] from by
                simp [hL, Except.toOption]] at h'
          exact h'
      case neg =>
        exact ih (i + 1) spans (some st) (d - 1) b e hIE (fun h => Option.noConfusion h)
      case neg =>
        exact ih (i + 1) spans (some st) d b e hIE (fun h => Option.noConfusion h)

/-- runner3's extractor under the recursion limit keeps exactly the captured
    spans that parse, dropping both decode and recursion errors. -/
theorem extract_excL3_eq (limit : Nat) (text : List Char) :
    runner3.extract_excL limit text
      = (capturedSpansL text).filterMap fun sp => (json_loads_excL limit sp).toOption := by
  have h := scan3E_objs_eq limit text text 0 [] none 0 false false (fun _ => rfl) (fun _ => rfl)
  simpa [runner3.extract_excL, capturedSpansL] using h

/-- `collectE` over spans that all parse under the limit returns exactly their
    parses, in order. -/
theorem collectE_ok_of_isSome (limit : Nat) :
    ∀ spans : List (List Char),
    (∀ sp ∈ spans, ((json_loads_excL limit sp).toOption).isSome = true) →
    collectE limit spans
      = Except.ok (spans.filterMap fun sp => (json_loads_excL limit sp).toOption) := by
  intro spans
  induction spans with
  | nil => intro _; rfl
  | cons sp rest ih =>
    intro h
    have hsp := h sp (by simp)
    rcases hx : json_loads_excL limit sp with e' | v
    · rw [hx] at hsp; simp [Except.toOption] at hsp
    · rw [show collectE limit (sp :: rest)
          = (collectE limit rest).map (v :: ·) from by rw [collectE, hx]]
      rw [ih (fun q hq => h q (by simp [hq]))]
      simp [List.filterMap_cons, hx, Except.toOption, Except.map]

/-- `collectE` raises exactly when some captured span is nested beyond the
    recursion limit. -/
theorem collectE_error_iff (limit : Nat) :
    ∀ spans : List (List Char),
    (collectE limit spans = Except.error PyExn.recursionError ↔
      ∃ sp ∈ spans, json_loads_excL limit sp = Except.error PyErr.recursionError) := by
  intro spans
  induction spans with
  | nil =>
    constructor
    · intro h; cases h
    · rintro ⟨sp, hsp, _⟩; cases hsp
  | cons sp rest ih =>
    rcases hx : json_loads_excL limit sp with e' | v
    · cases e' with
      | decodeError =>
        rw [show collectE limit (sp :: rest) = collectE limit rest from by rw [collectE, hx]]
        rw [ih]
        constructor
        · rintro ⟨q, hq, hqe⟩; exact ⟨q, by simp [hq], hqe⟩
        · rintro ⟨q, hq, hqe⟩
          rcases List.mem_cons.mp hq with hq | hq
          · subst hq; rw [hx] at hqe; cases hqe
          · exact ⟨q, hq, hqe⟩
      | recursionError =>
        rw [show collectE limit (sp :: rest) = Except.error PyExn.recursionError from by
          rw [collectE, hx]]
        constructor
        · intro _; exact ⟨sp, by simp, hx⟩
        · intro _; rfl
    · rw [show collectE limit (sp :: rest)
          = (collectE limit rest).map (v :: ·) from by rw [collectE, hx]]
      constructor
      · intro h
        rcases hc : collectE limit rest with e2 | l
        · rw [hc] at h
          have he2 : e2 = PyExn.recursionError := by
            simpa [Except.map] using h
          obtain ⟨q, hq, hqe⟩ := ih.mp (by rw [hc, he2])
          exact ⟨q, by simp [hq], hqe⟩
        · rw [hc] at h; simp [Except.map] at h
      · rintro ⟨q, hq, hqe⟩
        rcases List.mem_cons.mp hq with hq | hq
        · subst hq; rw [hx] at hqe; cases hqe
        · have := ih.mpr ⟨q, hq, hqe⟩
          rw [this]
          rfl

/-- Python-dict key lookup on a parsed JSON object (parsed objects have unique
    keys, so first match suffices). -/
def lookupKey : List (String × Json) → String → Option Json
  | [], _ => none
  | (k, v) :: rest, key => if k = key then some v else lookupKey rest key

namespace runner2

/-- runner2.py `ToolCall`: `tool_name` restricted to the three operation names,
    plus the raw argument mapping. -/
structure ToolCall where
  tool_name : String
  args : List (String × Json)

/-- runner2.py `validate_toolcall`: pydantic `ToolCall.model_validate(obj)`.
    The object must be a dict with a `tool_name` equal to one of the three
    operation names and a dict-valued `args`; extra keys are ignored.  The
    pydantic error message (`toolcall_schema_error` with truncated details) is
    modelled by the `none` result; the orchestrator only branches on success. -/
def validate_toolcall (obj : Json) : Option ToolCall :=
  match obj with
  | Json.obj kvs =>
    match lookupKey kvs "tool_name", lookupKey kvs "args" with
    | some (Json.str t), some (Json.obj a) =>
      if t = "resolve_country" ∨ t = "resolve_postal_code" ∨ t = "get_shipping_quote" then
        some ⟨t, a⟩
      else none
    | _, _ => none
  | _ => none

/-- runner2.py `ResolverCountryArgs`: `name: str = Field(min_length=2)`. -/
structure ResolverCountryArgs where
  name : String

/-- Pydantic validation of `ResolverCountryArgs`: `name` must be a string of
    length at least 2; extra keys are ignored. -/
def ResolverCountryArgs.validate (args : List (String × Json)) : Option ResolverCountryArgs :=
  match lookupKey args "name" with
  | some (Json.str s) => if 2 ≤ s.length then some ⟨s⟩ else none
  | _ => none

/-- runner2.py `ResolverPostalArgs` (lines 74-78): three optional string fields
    and a mode restricted to `lookup_city` / `validate_postal`, defaulting to
    `lookup_city`. -/
structure ResolverPostalArgs where
  country : Option String
  city : Option String
  value : Option String
  mode : String

/-- An `Optional[str] = None` pydantic field: absent and null become None, a
    string is kept, any other value is a validation error. -/
def optStrField : Option Json → Option (Option String)
  | none => some none
  | some Json.null => some none
  | some (Json.str s) => some (some s)
  | some _ => none

/-- Pydantic validation of `ResolverPostalArgs`: any combination of the three
    optional fields is accepted; only `mode` is constrained. -/
def ResolverPostalArgs.validate (args : List (String × Json)) : Option ResolverPostalArgs := do
  let country ← optStrField (lookupKey args "country")
  let city ← optStrField (lookupKey args "city")
  let value ← optStrField (lookupKey args "value")
  let mode ← match lookupKey args "mode" with
    | none => some "lookup_city"
    | some (Json.str s) => if s = "lookup_city" ∨ s = "validate_postal" then some s else none
    | some _ => none
  some ⟨country, city, value, mode⟩

/-- runner2.py `QuoteArgs` (lines 80-84).  The weight is kept as the exact
    fraction carried by the JSON literal (see `Json.num`). -/
structure QuoteArgs where
  country : String
  postal_code : String
  weight_num : Int
  weight_den : Nat
  service : String

/-- Pydantic validation of `QuoteArgs`: `country` a string of length exactly 2
    (`min_length=2, max_length=2`), `postal_code` a string of length 3..12,
    `weight_kg` a number with `gt=0.0, lt=50.0` (the comparison `0 < n/d < 50`
    is written on the numerator since the parser always yields a positive
    denominator), `service` one of `standard`/`express`, defaulting to
    `standard`.  Lax string-to-number coercion is not modelled. -/
def QuoteArgs.validate (args : List (String × Json)) : Option QuoteArgs :=
  match lookupKey args "country", lookupKey args "postal_code", lookupKey args "weight_kg" with
  | some (Json.str c), some (Json.str p), some (Json.num n d) =>
    if 2 ≤ c.length ∧ c.length ≤ 2 ∧ 3 ≤ p.length ∧ p.length ≤ 12 ∧
        0 < n ∧ n < 50 * (d : Int) then
      match lookupKey args "service" with
      | none => some ⟨c, p, n, d, "standard"⟩
      | some (Json.str s) =>
        if s = "standard" ∨ s = "express" then some ⟨c, p, n, d, s⟩ else none
      | some _ => none
    else none
  | _, _, _ => none

end runner2

namespace mainpy

/-- main.py `ResolvePostalRequest` (lines 157-161): the validated payload of
    `/v1/resolve/postal`. -/
structure ResolvePostalRequest where
  country : Option String
  city : Option String
  value : Option String
  mode : String

/-- main.py `ResolvePostalResponse` (lines 164-168). -/
structure ResolvePostalResponse where
  postal_code : Option String
  city : Option String
  error : Option String
  trace_id : String

/-- Python truthiness of an optional string (`not x` is true for None and ""). -/
def pyTruthyStr : Option String → Bool
  | none => false
  | some s => !s.isEmpty

/-- Python `str.isdigit` restricted to ASCII digits (the dataset uses only
    ASCII digits). -/
def isdigitB (s : String) : Bool := !s.isEmpty && s.toList.all Char.isDigit

/-- Python `str.strip` (whitespace from both ends; Unicode whitespace beyond
    ASCII is not modelled). -/
def pyStrip (s : String) : String :=
  ⟨((s.toList.dropWhile Char.isWhitespace).reverse.dropWhile Char.isWhitespace).reverse⟩

/-- Python `str.lower`, ASCII-only (the non-ASCII dataset keys are already
    lower-case). -/
def pyLower (s : String) : String := ⟨s.toList.map Char.toLower⟩

/-- Python `str.upper`, ASCII-only. -/
def pyUpper (s : String) : String := ⟨s.toList.map Char.toUpper⟩

/-- main.py `CITY_TO_POSTAL`: the hardcoded city-to-postal-code dataset. -/
def CITY_TO_POSTAL : List (String × List (String × String)) :=
  [("DE",
    [("berlin", "10115"), ("hamburg", "20095"), ("münchen", "80331"), ("koeln", "50667"),
     ("köln", "50667"), ("frankfurt", "60311"), ("stuttgart", "70173"), ("düsseldorf", "40213"),
     ("leipzig", "04109"), ("dortmund", "44135"), ("borken", "48455")]),
   ("AT",
    [("wien", "1010"), ("graz", "8010"), ("linz", "4020"), ("salzburg", "5020"),
     ("innsbruck", "6020"), ("klagenfurt", "9020"), ("villach", "9500"), ("wels", "4600"),
     ("st. pölten", "3100"), ("st poelten", "3100")]),
   ("CH",
    [("zürich", "8001"), ("zurich", "8001"), ("genf", "1201"), ("geneva", "1201"),
     ("basel", "4001"), ("bern", "3001"), ("lausanne", "1003"), ("winterthur", "8400"),
     ("luzern", "6003"), ("lugano", "6900"), ("st. gallen", "9000"), ("st gallen", "9000")]),
   ("NL",
    [("amsterdam", "1012"), ("rotterdam", "3011"), ("den haag", "2511"), ("utrecht", "3511"),
     ("eindhoven", "5611"), ("tilburg", "5038"), ("groningen", "9711"), ("almere", "1315"),
     ("breda", "4811"), ("nijmegen", "6511")]),
   ("FR",
    [("paris", "75001"), ("marseille", "13001"), ("lyon", "69001"), ("toulouse", "31000"),
     ("nice", "06000"), ("nantes", "44000"), ("montpellier", "34000"), ("strasbourg", "67000"),
     ("bordeaux", "33000"), ("lille", "59000")])]

/-- Assoc-list lookup for the dataset. -/
def lookupStr {α : Type} : List (String × α) → String → Option α
  | [], _ => none
  | (k, v) :: rest, key => if k = key then some v else lookupStr rest key

/-- main.py `resolve_postal` (lines 225-247): validate an exact postal value, or
    look a city up in the dataset; missing fields produce error payloads. -/
def resolve_postal (payload : ResolvePostalRequest) (trace_id : String) : ResolvePostalResponse :=
  if payload.mode = "validate_postal" then
    let raw := pyStrip ((payload.value).getD "")
    if isdigitB raw then ⟨some raw, none, none, trace_id⟩
    else ⟨none, none, some "not_a_postal_code", trace_id⟩
  else
    if !pyTruthyStr payload.country || !pyTruthyStr payload.city then
      ⟨none, none, some "missing_country_or_city", trace_id⟩
    else
      let c := pyUpper (pyStrip ((payload.country).getD ""))
      let city := pyLower (pyStrip ((payload.city).getD ""))
      match lookupStr CITY_TO_POSTAL c with
      | some m =>
        match lookupStr m city with
        | some postal => ⟨some postal, payload.city, none, trace_id⟩
        | none => ⟨none, none, some "not_found", trace_id⟩
      | none => ⟨none, none, some "not_found", trace_id⟩

end mainpy

/-- Outcome of one HTTP POST as the runner code observes it: either the
    underlying requests call raises (unreachable endpoint, timeout, ...) or a
    response arrives with a status code and a raw body. -/
inductive TransportResult where
  | exn (msg : String)
  | resp (status : Nat) (body : String)

/-- The remote server as a pure function of url and JSON payload.  The
    `x-trace-id` header is not an input: the remote operations are stateless and
    deterministic in the payload (spec §5, §8). -/
def Transport : Type := String → Json → TransportResult

/-- A transport that never raises: every call yields a response. -/
def NoRaise (t : Transport) : Prop :=
  ∀ url payload, ∃ status body, t url payload = TransportResult.resp status body

/-- Python `str.rstrip('/')`. -/
def rstripSlash (s : String) : String := ⟨(s.toList.reverse.dropWhile (· = '/')).reverse⟩

/-- A normalized tool result of runner2: `{"http": status, "json": payload}`. -/
structure ToolRes where
  http : Nat
  json : Json

/-- Serialize a string with JSON quoting (quote, backslash and the common
    control characters escaped; rare control characters are kept as is). -/
def dumpStr (s : String) : String :=
  ⟨qmark :: s.toList.foldr (fun c acc =>
    if c = qmark then bslash :: qmark :: acc
    else if c = bslash then bslash :: bslash :: acc
    else if c = '\n' then bslash :: 'n' :: acc
    else if c = '\t' then bslash :: 't' :: acc
    else if c.toNat = 13 then bslash :: 'r' :: acc
    else c :: acc) [qmark]⟩

/-- Python `json.dumps` with the default separators, fueled on nesting depth
    (the serialized text only ever feeds the model input; number formatting is
    simplified to exact fractions). -/
def dumps : Nat → Json → String
  | _, Json.null => "null"
  | _, Json.bool b => if b then "true" else "false"
  | _, Json.num n d => if d = 1 then toString n else toString n ++ "/" ++ toString d
  | _, Json.str s => dumpStr s
  | 0, Json.arr _ => "[...]"
  | fuel + 1, Json.arr xs => "[" ++ String.intercalate ", " (xs.map (dumps fuel)) ++ "]"
  | 0, Json.obj _ => "..."
  | fuel + 1, Json.obj kvs =>
    "\x7b" ++
      String.intercalate ", " (kvs.map fun kv => dumpStr kv.1 ++ ": " ++ dumps fuel kv.2) ++
      "\x7d"

/-- The first-round sentinel of both runners: an empty accumulated context is
    replaced with an explicit no-prior-calls marker. -/
def sentinel (ctx : String) : String := if ctx = "" then "(keine bisherigen Aufrufe)" else ctx

namespace runner2

/-- runner2.py `call_tool` (lines 100-115): map the tool name to a path, POST
    the args with the trace header, decode the body.  The POST itself is outside
    any try/except, so a transport exception propagates (`Except.error`); only
    body-decoding failures are normalized, preserving the transport status. -/
def call_tool (openapi_base : String) (transport : Transport) (trace_id : String)
    (tool_name : String) (args : List (String × Json)) : Except String ToolRes :=
  let path : Option String :=
    if tool_name = "resolve_country" then some "/v1/resolve/country"
    else if tool_name = "resolve_postal_code" then some "/v1/resolve/postal"
    else if tool_name = "get_shipping_quote" then some "/v1/shipping/quote"
    else none
  match path with
  | none => Except.ok ⟨400, Json.obj [("error", Json.str "unknown_tool")]⟩
  | some p =>
    let url := rstripSlash openapi_base ++ p
    match transport url (Json.obj args) with
    | TransportResult.exn msg => Except.error msg
    | TransportResult.resp status body =>
      match json_loadsL body.toList with
      | some j => Except.ok ⟨status, j⟩
      | none =>
        Except.ok ⟨status, Json.obj [("error", Json.str "non-json-response"),
          ("text", Json.str ⟨body.toList.take 500⟩)]⟩

/-- An entry of runner2's `tool_history`: an executed call with its round. -/
structure Event where
  tool_name : String
  args : List (String × Json)
  result : ToolRes
  round : Nat

/-- An entry of runner2's `tool_results_this_round`: a schema failure, a
    per-tool argument failure, the dead unknown-tool branch, or an executed
    call.  Error message details (pydantic error lists) are abstracted. -/
inductive RoundEntry where
  | schemaError (raw : Json)
  | argsError (tool : String) (args : List (String × Json))
  | unknownTool (raw : Json)
  | call (e : Event)

/-- A collected quote: the call's args and the response payload. -/
structure Quote where
  args : List (String × Json)
  response : Json

/-- runner2's returned run dict.  The success dict carries quotes and raw_last
    and no error; the failure dict carries an error and neither quotes nor
    raw_last; absent keys are `none`. -/
structure RunResult where
  trace_id : String
  ok : Bool
  quotes : Option (List Quote)
  error : Option String
  rounds_used : Nat
  tool_history : List Event
  raw_last : Option String

/-- The mutable state of runner2's round loop: the accumulated context string,
    the collected quotes and the tool history. -/
structure LoopSt where
  ctx : String
  quotes : List Quote
  hist : List Event

/-- The per-run inputs of runner2's `run_agentic`: the model as a function of
    (user request, serialized prior results), the base url and the remote
    transport.  The generated correlation identifier (`str(uuid.uuid4())`) is a
    separate argument of the run functions. -/
structure Params where
  model : String → String → String
  user_text : String
  openapi_base : String
  transport : Transport

/-- The per-tool argument validation of runner2's round loop (lines 176-199):
    a `some` result is the failure entry recorded for the round, `none` lets the
    call proceed.  The final `else` branch is unreachable because
    `validate_toolcall` restricts the tool name. -/
def argCheck (tc : ToolCall) (obj : Json) : Option RoundEntry :=
  if tc.tool_name = "resolve_country" then
    if (ResolverCountryArgs.validate tc.args).isSome then none
    else some (RoundEntry.argsError "resolve_country" tc.args)
  else if tc.tool_name = "resolve_postal_code" then
    if (ResolverPostalArgs.validate tc.args).isSome then none
    else some (RoundEntry.argsError "resolve_postal_code" tc.args)
  else if tc.tool_name = "get_shipping_quote" then
    if (QuoteArgs.validate tc.args).isSome then none
    else some (RoundEntry.argsError "get_shipping_quote" tc.args)
  else some (RoundEntry.unknownTool obj)

/-- The object loop of runner2's `run_agentic` (lines 169-208): validate, check
    args, invoke, and record, in extraction order.  Returns this round's
    entries, the new history events and the new quotes; a transport exception
    aborts the run (`Except.error`), as in the source where nothing catches it. -/
def processObjs (P : Params) (trace_id : String) (round_idx : Nat) :
    List Json → Except String (List RoundEntry × List Event × List Quote)
  | [] => Except.ok ([], [], [])
  | obj :: rest =>
    match validate_toolcall obj with
    | none =>
      (processObjs P trace_id round_idx rest).map fun r =>
        (RoundEntry.schemaError obj :: r.1, r.2)
    | some tc =>
      match argCheck tc obj with
      | some entry =>
        (processObjs P trace_id round_idx rest).map fun r => (entry :: r.1, r.2)
      | none =>
        match call_tool P.openapi_base P.transport trace_id tc.tool_name tc.args with
        | Except.error e => Except.error e
        | Except.ok res =>
          let event : Event := ⟨tc.tool_name, tc.args, res, round_idx⟩
          (processObjs P trace_id round_idx rest).map fun r =>
            (RoundEntry.call event :: r.1, event :: r.2.1,
             if tc.tool_name = "get_shipping_quote" ∧ res.http = 200 then
               ⟨tc.args, res.json⟩ :: r.2.2
             else r.2.2)

/-- Serialization of a round entry into the context (`json.dumps` shape of the
    dicts appended to `tool_results_this_round`; error details abstracted). -/
def entryToJson : RoundEntry → Json
  | RoundEntry.schemaError raw =>
    Json.obj [("error", Json.str "toolcall_schema_error"), ("raw_obj", raw)]
  | RoundEntry.argsError tool args =>
    Json.obj [("tool", Json.str tool), ("error", Json.str "validation_error"),
      ("args", Json.obj args)]
  | RoundEntry.unknownTool raw =>
    Json.obj [("error", Json.str "unknown_tool"), ("raw_obj", raw)]
  | RoundEntry.call e =>
    Json.obj [("tool_name", Json.str e.tool_name), ("args", Json.obj e.args),
      ("result", Json.obj [("http", Json.num (e.result.http : Int) 1), ("json", e.result.json)]),
      ("round", Json.num (e.round : Int) 1)]

/-- The model reply for the current round. -/
def rawOf (P : Params) (st : LoopSt) : String := P.model P.user_text (sentinel st.ctx)

/-- `tool_results_so_far += f"\nRound {round_idx}:\n{json.dumps(...)}"`. -/
def ctxAppend (ctx : String) (round_idx : Nat) (entries : List RoundEntry) : String :=
  ctx ++ "\nRound " ++ toString round_idx ++ ":\n"
    ++ dumps 100 (Json.arr (entries.map entryToJson))

/-- The round loop of runner2's `run_agentic` (lines 157-229), by remaining
    fuel: a round queries the model, extracts and processes the objects, then
    returns success as soon as any quote has been collected (`if quotes:`),
    else accumulates context; exhausted fuel returns the failure dict. -/
def run_loop (P : Params) (trace_id : String) (max_rounds : Nat) :
    Nat → Nat → LoopSt → Except String RunResult
  | 0, _, st =>
    Except.ok ⟨trace_id, false, none, some "no_quote_within_max_rounds", max_rounds,
      st.hist, none⟩
  | fuel + 1, round_idx, st =>
    let raw := rawOf P st
    match processObjs P trace_id round_idx (extractL raw.toList) with
    | Except.error e => Except.error e
    | Except.ok (entries, evs, qs) =>
      let quotes' := st.quotes ++ qs
      let hist' := st.hist ++ evs
      if !quotes'.isEmpty then
        Except.ok ⟨trace_id, true, some quotes', none, round_idx, hist', some raw⟩
      else
        run_loop P trace_id max_rounds fuel (round_idx + 1)
          ⟨ctxAppend st.ctx round_idx entries, quotes', hist'⟩

/-- runner2.py `run_agentic` (line 148): up to `max_rounds` rounds from an empty
    state, under the freshly generated correlation identifier. -/
def run_agentic (P : Params) (trace_id : String) (max_rounds : Nat := 3) :
    Except String RunResult :=
  run_loop P trace_id max_rounds max_rounds 1 ⟨"", [], []⟩

end runner2

/-- Generic assoc-list lookup by string key (Python dict lookup for the
    hand-rolled tables). -/
def lookupStr {α : Type} : List (String × α) → String → Option α
  | [], _ => none
  | (k, v) :: rest, key => if k = key then some v else lookupStr rest key

namespace runner3

/-- One tool extracted from the OpenAPI spec in runner3.py: its path and the
    description strings that go into the prompt. -/
structure ToolInfo where
  path : String
  summary : String
  description : String
  argsDesc : String

/-- runner3.py `format_tools_for_prompt` (lines 86-93). -/
def format_tools_for_prompt (tools : List (String × ToolInfo)) : String :=
  String.intercalate "\n" (tools.map fun p =>
    "- " ++ p.1 ++ ": " ++ p.2.summary ++ "\n    " ++ p.2.description
      ++ "\n    Args: " ++ p.2.argsDesc)

/-- Python `str()` of a JSON value, used only inside the unknown-tool message
    (string content abstracted for non-scalar values). -/
def pyStr : Json → String
  | Json.str s => s
  | Json.num n d => if d = 1 then toString n else toString n ++ "/" ++ toString d
  | Json.bool b => if b then "True" else "False"
  | Json.null => "None"
  | j => dumps 100 j

/-- A runner3 tool result: either the unknown-tool error dict (which has no http
    field) or `{"http": status, "json": payload}`. -/
inductive ToolRes where
  | errorOnly (msg : String)
  | httpRes (http : Nat) (json : Json)

/-- Python `res.get("http")`. -/
def ToolRes.getHttp : ToolRes → Option Nat
  | ToolRes.errorOnly _ => none
  | ToolRes.httpRes h _ => some h

/-- Python `res["json"]` (only evaluated under a successful http check). -/
def ToolRes.jsonOf : ToolRes → Json
  | ToolRes.errorOnly _ => Json.null
  | ToolRes.httpRes _ j => j

/-- Python `args.items()` of a parsed JSON value, restricted to the crash-free
    case: in runner3.py a non-dict `args` (including an explicit `"args": null`)
    raises AttributeError before the try/except.  This total version treats it
    as an empty dict and is used only by the crash-free `call_tool` model below;
    the exception-faithful invoker is `call_toolE`. -/
def asObj : Json → List (String × Json)
  | Json.obj kvs => kvs
  | _ => []

/-- runner3.py `call_tool` (lines 96-108), restricted to the crash-free entry
    cases: in the source `tool_name not in tools` raises TypeError on an
    unhashable (dict/list) name and `args.items()` raises AttributeError on a
    non-dict args, both before the try/except; this total model collapses those
    paths to the harmless branches (unknown tool / empty dict) and is kept only
    for the result-shape invariant, whose statement concerns returning runs.
    The exception-faithful invoker is `call_toolE`.  Otherwise as the source:
    unknown tools produce an error dict without calling out, None-valued args
    are dropped, the POST and the body decode run inside a catch-all
    try/except, and every outcome there is normalized — a transport exception
    becomes `{"http": 500, "json": {"error": msg}}` and an undecodable body
    becomes the same shape (the exception text of the decode error is
    abstracted). -/
def call_tool (base_url : String) (transport : Transport) (tools : List (String × ToolInfo))
    (tool_name : Json) (args : Json) : ToolRes :=
  let entry : Option (String × ToolInfo) :=
    match tool_name with
    | Json.str name => (lookupStr tools name).map fun ti => (name, ti)
    | _ => none
  match entry with
  | none => ToolRes.errorOnly ("Unknown tool: " ++ pyStr tool_name)
  | some (_, ti) =>
    let payload := (asObj args).filter fun kv =>
      match kv.2 with
      | Json.null => false
      | _ => true
    match transport (base_url ++ ti.path) (Json.obj payload) with
    | TransportResult.exn msg => ToolRes.httpRes 500 (Json.obj [("error", Json.str msg)])
    | TransportResult.resp status body =>
      match json_loadsL body.toList with
      | some j => ToolRes.httpRes status j
      | none => ToolRes.httpRes 500 (Json.obj [("error", Json.str "json-decode-error")])

/-- Python truthiness of a JSON value (`if not tool_name: continue`). -/
def jsonTruthy : Json → Bool
  | Json.null => false
  | Json.bool b => b
  | Json.num n _ => !(n == 0)
  | Json.str s => !s.isEmpty
  | Json.arr xs => !xs.isEmpty
  | Json.obj kvs => !kvs.isEmpty

/-- Python `obj.get(key)`. -/
def dictGet (j : Json) (key : String) : Option Json :=
  match j with
  | Json.obj kvs => lookupKey kvs key
  | _ => none

/-- Python `tool_name == "get_shipping_quote"` on the raw JSON value. -/
def isQuoteName : Json → Bool
  | Json.str s => s = "get_shipping_quote"
  | _ => false

/-- An entry of runner3's histories: the raw tool name and args and the result
    (runner3 events carry no round number). -/
structure Event where
  tool_name : Json
  args : Json
  result : ToolRes

/-- A collected quote of runner3. -/
structure Quote where
  args : Json
  response : Json

/-- runner3's returned run dict (no trace identifier, no raw_last). -/
structure RunResult where
  ok : Bool
  quotes : Option (List Quote)
  error : Option String
  rounds_used : Nat
  tool_history : List Event

/-- The mutable state of runner3's round loop. -/
structure LoopSt where
  ctx : String
  quotes : List Quote
  hist : List Event

/-- The per-run inputs of runner3's `run_agentic`: the model as a function of
    (user request, tools description, serialized prior results), the base url,
    the transport and the tool table with its prompt rendering. -/
structure Params where
  model : String → String → String → String
  user_text : String
  base_url : String
  transport : Transport
  tools : List (String × ToolInfo)
  tools_desc : String

/-- The object loop of runner3's `run_agentic` (lines 194-208): objects without
    a truthy tool_name are skipped without record; every other object is
    invoked (unknown names produce recorded error results); successful quote
    calls are collected. -/
def processObjs (P : Params) : List Json → List Event × List Quote
  | [] => ([], [])
  | obj :: rest =>
    let tool_name := (dictGet obj "tool_name").getD Json.null
    let args := (dictGet obj "args").getD (Json.obj [])
    if !jsonTruthy tool_name then processObjs P rest
    else
      let res := call_tool P.base_url P.transport P.tools tool_name args
      let event : Event := ⟨tool_name, args, res⟩
      let r := processObjs P rest
      (event :: r.1,
       if isQuoteName tool_name && res.getHttp == some 200 then
         ⟨args, res.jsonOf⟩ :: r.2
       else r.2)

/-- Serialization of a history event into the context. -/
def eventToJson (e : Event) : Json :=
  Json.obj [("tool_name", e.tool_name), ("args", e.args),
    ("result", match e.result with
      | ToolRes.errorOnly msg => Json.obj [("error", Json.str msg)]
      | ToolRes.httpRes h j => Json.obj [("http", Json.num (h : Int) 1), ("json", j)])]

/-- One round of runner3's loop (lines 184-208): query the model, extract,
    process, and append results to the context, quotes and history. -/
def doRound (P : Params) (round_idx : Nat) (st : LoopSt) :
    List Event × List Quote × LoopSt :=
  let raw := P.model P.user_text P.tools_desc (sentinel st.ctx)
  let r := processObjs P (extractL raw.toList)
  (r.1, r.2,
   ⟨st.ctx ++ "\nRound " ++ toString round_idx ++ ":\n"
      ++ dumps 100 (Json.arr (r.1.map eventToJson)),
    st.quotes ++ r.2, st.hist ++ r.1⟩)

/-- The round loop of runner3's `run_agentic` (lines 183-219): a round succeeds
    iff it issued at least one get_shipping_quote call and all of them returned
    http 200 (`quote_calls and len(quote_ok) == len(quote_calls)`); exhausted
    fuel returns the failure dict with error "max_rounds". -/
def run_loop (P : Params) (max_rounds : Nat) : Nat → Nat → LoopSt → RunResult
  | 0, _, st => ⟨false, none, some "max_rounds", max_rounds, st.hist⟩
  | fuel + 1, round_idx, st =>
    let t := doRound P round_idx st
    let quote_calls := t.1.filter fun e => isQuoteName e.tool_name
    let quote_ok := quote_calls.filter fun e => e.result.getHttp == some 200
    if !quote_calls.isEmpty && quote_ok.length == quote_calls.length then
      ⟨true, some t.2.2.quotes, none, round_idx, t.2.2.hist⟩
    else run_loop P max_rounds fuel (round_idx + 1) t.2.2

/-- runner3.py `run_agentic` (line 175). -/
def run_agentic (model : String → String → String → String) (user_text base_url : String)
    (transport : Transport) (tools : List (String × ToolInfo)) (max_rounds : Nat := 3) :
    RunResult :=
  run_loop ⟨model, user_text, base_url, transport, tools, format_tools_for_prompt tools⟩
    max_rounds max_rounds 1 ⟨"", [], []⟩

/-- The loop state after `n` completed (non-concluding) rounds. -/
def stAfter (P : Params) : Nat → LoopSt
  | 0 => ⟨"", [], []⟩
  | n + 1 => (doRound P (n + 1) (stAfter P n)).2.2

/-- The events of round `r` of a run, assuming rounds 1..r-1 did not conclude. -/
def roundEvs (P : Params) (r : Nat) : List Event := (doRound P r (stAfter P (r - 1))).1

/-- The completion test of round `r`, exactly as the code computes it. -/
def roundSuccessB (P : Params) (r : Nat) : Bool :=
  let qc := (roundEvs P r).filter fun e => isQuoteName e.tool_name
  !qc.isEmpty && (qc.filter fun e => e.result.getHttp == some 200).length == qc.length

end runner3

namespace runner2

/-- The round entry a single extracted object produces (total mirror of one
    iteration of `processObjs`; the error case of `call_tool` is unreachable
    for a transport that does not raise). -/
def entryFor (P : Params) (trace_id : String) (round_idx : Nat) (obj : Json) : RoundEntry :=
  match validate_toolcall obj with
  | none => RoundEntry.schemaError obj
  | some tc =>
    match argCheck tc obj with
    | some entry => entry
    | none =>
      match call_tool P.openapi_base P.transport trace_id tc.tool_name tc.args with
      | Except.ok res => RoundEntry.call ⟨tc.tool_name, tc.args, res, round_idx⟩
      | Except.error _ => RoundEntry.schemaError obj

/-- The history event a single extracted object produces, if it is a valid call. -/
def eventFor (P : Params) (trace_id : String) (round_idx : Nat) (obj : Json) : Option Event :=
  match validate_toolcall obj with
  | none => none
  | some tc =>
    match argCheck tc obj with
    | some _ => none
    | none =>
      match call_tool P.openapi_base P.transport trace_id tc.tool_name tc.args with
      | Except.ok res => some ⟨tc.tool_name, tc.args, res, round_idx⟩
      | Except.error _ => none

/-- The quote a single extracted object produces, if it is a successful
    get_shipping_quote invocation. -/
def quoteFor (P : Params) (trace_id : String) (round_idx : Nat) (obj : Json) : Option Quote :=
  match validate_toolcall obj with
  | none => none
  | some tc =>
    match argCheck tc obj with
    | some _ => none
    | none =>
      match call_tool P.openapi_base P.transport trace_id tc.tool_name tc.args with
      | Except.ok res =>
        if tc.tool_name = "get_shipping_quote" ∧ res.http = 200 then
          some ⟨tc.args, res.json⟩
        else none
      | Except.error _ => none

/-- Under a transport that never raises, `call_tool` always returns a result. -/
theorem call_tool_ok (base : String) (t : Transport) (hNR : NoRaise t)
    (trace name : String) (args : List (String × Json)) :
    ∃ res, call_tool base t trace name args = Except.ok res := by
  unfold call_tool
  cases hp : (if name = "resolve_country" then some "/v1/resolve/country"
      else if name = "resolve_postal_code" then some "/v1/resolve/postal"
      else if name = "get_shipping_quote" then some "/v1/shipping/quote" else none) with
  | none => exact ⟨_, rfl⟩
  | some p =>
    obtain ⟨s, b, hresp⟩ := hNR (rstripSlash base ++ p) (Json.obj args)
    simp only [hresp]
    cases json_loadsL b.toList with
    | none => exact ⟨_, rfl⟩
    | some j => exact ⟨_, rfl⟩

/-- Under a transport that never raises, the object loop is the catamorphism of
    its per-object functions: one entry per object in extraction order, one
    history event per valid call in extraction order, one quote per successful
    quote invocation in extraction order. -/
theorem processObjs_eq (P : Params) (hNR : NoRaise P.transport) (trace_id : String)
    (round_idx : Nat) :
    ∀ objs, processObjs P trace_id round_idx objs
      = Except.ok (objs.map (entryFor P trace_id round_idx),
          objs.filterMap (eventFor P trace_id round_idx),
          objs.filterMap (quoteFor P trace_id round_idx)) := by
  intro objs
  induction objs with
  | nil => rfl
  | cons obj rest ih =>
    cases hv : validate_toolcall obj with
    | none =>
      simp [processObjs, entryFor, eventFor, quoteFor, hv, ih, List.filterMap_cons, Except.map]
    | some tc =>
      cases hac : argCheck tc obj with
      | some entry =>
        simp [processObjs, entryFor, eventFor, quoteFor, hv, hac, ih, List.filterMap_cons,
          Except.map]
      | none =>
        obtain ⟨res, hres⟩ :=
          call_tool_ok P.openapi_base P.transport hNR trace_id tc.tool_name tc.args
        simp only [processObjs, entryFor, eventFor, quoteFor, hv, hac, hres, ih, Except.map,
          List.filterMap_cons, List.map_cons]
        by_cases hq : tc.tool_name = "get_shipping_quote" ∧ res.http = 200
        · simp only [if_pos hq]
        · simp only [if_neg hq]

/-- Every quote the object loop collects corresponds to a recorded
    get_shipping_quote event with http 200 among the events of the same round
    (no transport assumption: stated on any successful processing). -/
theorem processObjs_quote_event (P : Params) (trace_id : String) (round_idx : Nat) :
    ∀ (objs : List Json) (entries : List RoundEntry) (evs : List Event) (qs : List Quote),
    processObjs P trace_id round_idx objs = Except.ok (entries, evs, qs) →
    ∀ q ∈ qs, ∃ e ∈ evs, e.tool_name = "get_shipping_quote" ∧ e.result.http = 200 ∧
      e.args = q.args ∧ e.result.json = q.response := by
  intro objs
  induction objs with
  | nil =>
    intro entries evs qs h q hq
    cases h
    cases hq
  | cons obj rest ih =>
    intro entries evs qs h q hq
    rw [processObjs] at h
    cases hv : validate_toolcall obj with
    | none =>
      simp only [hv] at h
      rcases hrec : processObjs P trace_id round_idx rest with e' | ⟨entries', evs', qs'⟩ <;>
        rw [hrec] at h <;> simp only [Except.map] at h
      · cases h
      · cases h
        exact ih _ _ _ hrec q hq
    | some tc =>
      cases hac : argCheck tc obj with
      | some entry =>
        simp only [hv, hac] at h
        rcases hrec : processObjs P trace_id round_idx rest with e' | ⟨entries', evs', qs'⟩ <;>
          rw [hrec] at h <;> simp only [Except.map] at h
        · cases h
        · cases h
          exact ih _ _ _ hrec q hq
      | none =>
        cases hct : call_tool P.openapi_base P.transport trace_id tc.tool_name tc.args with
        | error e2 => simp only [hv, hac, hct] at h; cases h
        | ok res =>
          simp only [hv, hac, hct] at h
          rcases hrec : processObjs P trace_id round_idx rest with e' | ⟨entries', evs', qs'⟩ <;>
            rw [hrec] at h <;> simp only [Except.map] at h
          · cases h
          · by_cases hcond : tc.tool_name = "get_shipping_quote" ∧ res.http = 200
            · rw [if_pos hcond] at h
              cases h
              cases hq with
              | head =>
                exact ⟨⟨tc.tool_name, tc.args, res, round_idx⟩, by simp, hcond.1, hcond.2,
                  rfl, rfl⟩
              | tail _ hq =>
                obtain ⟨e, he, hprop⟩ := ih _ _ _ hrec q hq
                exact ⟨e, by simp [he], hprop⟩
            · rw [if_neg hcond] at h
              cases h
              obtain ⟨e, he, hprop⟩ := ih _ _ _ hrec q hq
              exact ⟨e, by simp [he], hprop⟩

/-- One round's data, as the total mirror functions compute it. -/
def doRoundT (P : Params) (trace_id : String) (round_idx : Nat) (st : LoopSt) :
    List RoundEntry × List Event × List Quote :=
  let objs := extractL (rawOf P st).toList
  (objs.map (entryFor P trace_id round_idx), objs.filterMap (eventFor P trace_id round_idx),
   objs.filterMap (quoteFor P trace_id round_idx))

/-- The loop state after a non-concluding round. -/
def nextSt (P : Params) (trace_id : String) (round_idx : Nat) (st : LoopSt) : LoopSt :=
  ⟨ctxAppend st.ctx round_idx (doRoundT P trace_id round_idx st).1,
   st.quotes ++ (doRoundT P trace_id round_idx st).2.2,
   st.hist ++ (doRoundT P trace_id round_idx st).2.1⟩

/-- The loop state after `n` completed non-concluding rounds. -/
def stAfter (P : Params) (trace_id : String) : Nat → LoopSt
  | 0 => ⟨"", [], []⟩
  | n + 1 => nextSt P trace_id (n + 1) (stAfter P trace_id n)

/-- The history events of round `r`, assuming rounds 1..r-1 did not conclude. -/
def roundEvsT (P : Params) (trace_id : String) (r : Nat) : List Event :=
  (doRoundT P trace_id r (stAfter P trace_id (r - 1))).2.1

/-- The quotes collected in round `r`, assuming rounds 1..r-1 did not conclude. -/
def roundQsT (P : Params) (trace_id : String) (r : Nat) : List Quote :=
  (doRoundT P trace_id r (stAfter P trace_id (r - 1))).2.2

/-- Under a transport that never raises, one step of runner2's round loop:
    return success as soon as the quote accumulator is nonempty, otherwise
    continue with the extended state. -/
theorem run_loop_step (P : Params) (hNR : NoRaise P.transport) (trace_id : String)
    (max_rounds fuel round_idx : Nat) (st : LoopSt) :
    run_loop P trace_id max_rounds (fuel + 1) round_idx st
      = if !(st.quotes ++ (doRoundT P trace_id round_idx st).2.2).isEmpty then
          Except.ok ⟨trace_id, true,
            some (st.quotes ++ (doRoundT P trace_id round_idx st).2.2), none, round_idx,
            st.hist ++ (doRoundT P trace_id round_idx st).2.1, some (rawOf P st)⟩
        else run_loop P trace_id max_rounds fuel (round_idx + 1)
          (nextSt P trace_id round_idx st) := by
  simp only [run_loop]
  rw [processObjs_eq P hNR trace_id round_idx]
  rfl

/-- The returned tool history always extends the incoming one (append-only). -/
theorem run_loop_hist (P : Params) (trace_id : String) (max_rounds : Nat) :
    ∀ (fuel round_idx : Nat) (st : LoopSt) (res : RunResult),
    run_loop P trace_id max_rounds fuel round_idx st = Except.ok res →
    ∃ sfx, res.tool_history = st.hist ++ sfx := by
  intro fuel
  induction fuel with
  | zero =>
    intro round_idx st res h
    cases h
    exact ⟨[], by simp⟩
  | succ fuel ih =>
    intro round_idx st res h
    rw [run_loop] at h
    rcases hp : processObjs P trace_id round_idx (extractL (rawOf P st).toList) with
      e' | ⟨entries, evs, qs⟩ <;> rw [hp] at h <;> simp only [] at h
    · cases h
    · by_cases hne : !(st.quotes ++ qs).isEmpty
      · rw [if_pos hne] at h
        cases h
        exact ⟨evs, rfl⟩
      · rw [if_neg hne] at h
        obtain ⟨sfx, hsfx⟩ := ih (round_idx + 1) _ res h
        exact ⟨evs ++ sfx, by simpa [List.append_assoc] using hsfx⟩

/-- The shape invariant of runner2's returned run dict (proved by induction on
    the remaining rounds, with no transport assumption). -/
theorem run_loop_invariant (P : Params) (trace_id : String) (max_rounds : Nat) :
    ∀ (fuel round_idx : Nat) (st : LoopSt) (res : RunResult),
    run_loop P trace_id max_rounds fuel round_idx st = Except.ok res →
    st.quotes = [] → 1 ≤ round_idx →
    ((res.ok = true → ∃ qs, res.quotes = some qs ∧ qs ≠ [] ∧
        (∀ q ∈ qs, ∃ e ∈ res.tool_history, e.tool_name = "get_shipping_quote" ∧
          e.result.http = 200 ∧ e.args = q.args ∧ e.result.json = q.response) ∧
        round_idx ≤ res.rounds_used ∧ res.rounds_used ≤ round_idx + fuel - 1) ∧
     (res.ok = false → res.rounds_used = max_rounds ∧ res.quotes = none)) := by
  intro fuel
  induction fuel with
  | zero =>
    intro round_idx st res h hq0 hr1
    cases h
    constructor
    · intro h'; simp at h'
    · intro _; exact ⟨rfl, rfl⟩
  | succ fuel ih =>
    intro round_idx st res h hq0 hr1
    rw [run_loop] at h
    rcases hp : processObjs P trace_id round_idx (extractL (rawOf P st).toList) with
      e' | ⟨entries, evs, qs⟩ <;> rw [hp] at h <;> simp only [] at h
    · cases h
    · by_cases hne : !(st.quotes ++ qs).isEmpty
      · rw [if_pos hne] at h
        cases h
        constructor
        · intro _
          refine ⟨st.quotes ++ qs, rfl, by simpa using hne, ?_, ?_, ?_⟩
          · intro q hq
            rw [hq0] at hq
            simp only [List.nil_append] at hq
            obtain ⟨e, he, hprop⟩ :=
              processObjs_quote_event P trace_id round_idx _ _ _ _ hp q hq
            exact ⟨e, by simp [he], hprop⟩
          · exact le_refl _
          · show round_idx ≤ round_idx + (fuel + 1) - 1
            omega
        · intro h'; simp at h'
      · rw [if_neg hne] at h
        have hq0' : (⟨ctxAppend st.ctx round_idx entries, st.quotes ++ qs, st.hist ++ evs⟩ :
            LoopSt).quotes = [] := by
          simpa using hne
        have := ih (round_idx + 1) _ res h hq0' (by omega)
        refine ⟨fun hok => ?_, this.2⟩
        obtain ⟨qs', h1, h2, h3, h4, h5⟩ := this.1 hok
        exact ⟨qs', h1, h2, h3, by omega, by omega⟩

/-- Erase the correlation identifier from a returned run dict. -/
def stripTrace (res : RunResult) : RunResult := { res with trace_id := "" }

/-- The object loop does not depend on the correlation identifier (the trace
    header is not an input of the modelled transport). -/
theorem processObjs_trace (P : Params) (t1 t2 : String) (round_idx : Nat) :
    ∀ objs, processObjs P t1 round_idx objs = processObjs P t2 round_idx objs := by
  intro objs
  induction objs with
  | nil => rfl
  | cons obj rest ih =>
    cases hv : validate_toolcall obj with
    | none => simp only [processObjs, hv]; rw [ih]
    | some tc =>
      cases hac : argCheck tc obj with
      | some entry => simp only [processObjs, hv, hac]; rw [ih]
      | none =>
        have hct : call_tool P.openapi_base P.transport t1 tc.tool_name tc.args
            = call_tool P.openapi_base P.transport t2 tc.tool_name tc.args := rfl
        simp only [processObjs, hv, hac, hct]
        rw [ih]

/-- Two runs differing only in the correlation identifier produce results that
    agree after erasing the identifier. -/
theorem run_loop_trace (P : Params) (t1 t2 : String) (max_rounds : Nat) :
    ∀ (fuel round_idx : Nat) (st : LoopSt),
    (run_loop P t1 max_rounds fuel round_idx st).map stripTrace
      = (run_loop P t2 max_rounds fuel round_idx st).map stripTrace := by
  intro fuel
  induction fuel with
  | zero => intro round_idx st; rfl
  | succ fuel ih =>
    intro round_idx st
    rw [run_loop, run_loop, processObjs_trace P t1 t2]
    rcases hp : processObjs P t2 round_idx (extractL (rawOf P st).toList) with
      e' | ⟨entries, evs, qs⟩
    · rfl
    · simp only []
      by_cases hne : !(st.quotes ++ qs).isEmpty
      · rw [if_pos hne, if_pos hne]
        rfl
      · rw [if_neg hne, if_neg hne]
        exact ih (round_idx + 1) _

end runner2

namespace runner3

/-- The code's completion test of a round is exactly the canonical rule: at
    least one quote call was issued and every issued quote call returned 200. -/
theorem successB_iff (evs : List Event) :
    (!(evs.filter fun e => isQuoteName e.tool_name).isEmpty &&
      ((evs.filter fun e => isQuoteName e.tool_name).filter fun e =>
          e.result.getHttp == some 200).length
        == (evs.filter fun e => isQuoteName e.tool_name).length) = true
    ↔ ((evs.filter fun e => isQuoteName e.tool_name) ≠ [] ∧
       ∀ e ∈ evs.filter fun e => isQuoteName e.tool_name, e.result.getHttp = some 200) := by
  rw [Bool.and_eq_true, Bool.not_eq_true', beq_iff_eq, List.isEmpty_eq_false_iff_exists_mem]
  rw [List.filter_length_eq_length]
  constructor
  · rintro ⟨⟨x, hx⟩, h2⟩
    constructor
    · intro h0
      rw [h0] at hx
      cases hx
    · intro e he
      simpa using h2 e he
  · rintro ⟨h1, h2⟩
    constructor
    · cases hl : evs.filter fun e => isQuoteName e.tool_name with
      | nil => exact absurd hl h1
      | cons a l => exact ⟨a, by simp [hl]⟩
    · intro e he
      simpa using h2 e he

/-- Every quote collected by runner3's object loop corresponds to a recorded
    get_shipping_quote event with http 200 among the same events. -/
theorem processObjs_quote_event3 (P : Params) :
    ∀ (objs : List Json) (q : Quote), q ∈ (processObjs P objs).2 →
    ∃ e ∈ (processObjs P objs).1, isQuoteName e.tool_name = true ∧
      e.result = ToolRes.httpRes 200 q.response ∧ e.args = q.args := by
  intro objs
  induction objs with
  | nil => intro q hq; cases hq
  | cons obj rest ih =>
    intro q hq
    rw [processObjs] at hq ⊢
    by_cases ht : !jsonTruthy ((dictGet obj "tool_name").getD Json.null)
    · rw [if_pos ht] at hq ⊢
      exact ih q hq
    · rw [if_neg ht] at hq ⊢
      simp only [] at hq ⊢
      set tool_name := (dictGet obj "tool_name").getD Json.null with htn
      set args := (dictGet obj "args").getD (Json.obj []) with hargs
      set res := call_tool P.base_url P.transport P.tools tool_name args with hres
      by_cases hg : (isQuoteName tool_name && res.getHttp == some 200) = true
      · rw [if_pos hg] at hq
        obtain ⟨hg1, hg2⟩ := (Bool.and_eq_true _ _).mp hg
        cases hq with
        | head =>
          cases hr : res with
          | errorOnly msg => rw [hr] at hg2; simp [ToolRes.getHttp] at hg2
          | httpRes h j =>
            have hh : h = 200 := by
              rw [hr] at hg2
              simpa [ToolRes.getHttp] using hg2
            subst hh
            refine ⟨⟨tool_name, args, res⟩, ?_, hg1, by simp [hr, ToolRes.jsonOf], rfl⟩
            rw [hr]
            exact List.mem_cons_self _ _
        | tail _ hq =>
          obtain ⟨e, he, hprop⟩ := ih q hq
          exact ⟨e, by simp [he], hprop⟩
      · rw [if_neg hg] at hq
        obtain ⟨e, he, hprop⟩ := ih q hq
        exact ⟨e, by simp [he], hprop⟩

/-- If the object loop recorded a successful quote event, it also collected a
    quote. -/
theorem processObjs_quote_of_event (P : Params) :
    ∀ (objs : List Json) (e : Event), e ∈ (processObjs P objs).1 →
    isQuoteName e.tool_name = true → e.result.getHttp = some 200 →
    (processObjs P objs).2 ≠ [] := by
  intro objs
  induction objs with
  | nil => intro e he _ _; cases he
  | cons obj rest ih =>
    intro e he hq h200
    rw [processObjs] at he ⊢
    by_cases ht : !jsonTruthy ((dictGet obj "tool_name").getD Json.null)
    · rw [if_pos ht] at he ⊢
      exact ih e he hq h200
    · rw [if_neg ht] at he ⊢
      try simp only [] at he ⊢
      set tool_name := (dictGet obj "tool_name").getD Json.null with htn
      set args := (dictGet obj "args").getD (Json.obj []) with hargs
      set res := call_tool P.base_url P.transport P.tools tool_name args with hres
      cases he with
      | head =>
        have hg : (isQuoteName tool_name && res.getHttp == some 200) = true := by
          simp only [Bool.and_eq_true, beq_iff_eq]
          exact ⟨hq, h200⟩
        rw [if_pos hg]
        simp
      | tail _ he =>
        have hne := ih e he hq h200
        by_cases hg : (isQuoteName tool_name && res.getHttp == some 200) = true
        · rw [if_pos hg]; simp
        · rw [if_neg hg]; exact hne

/-- One unfold of runner3's round loop. -/
theorem run_loop_step3 (P : Params) (max_rounds fuel round_idx : Nat) (st : LoopSt) :
    run_loop P max_rounds (fuel + 1) round_idx st
      = if !((doRound P round_idx st).1.filter fun e => isQuoteName e.tool_name).isEmpty &&
            (((doRound P round_idx st).1.filter fun e => isQuoteName e.tool_name).filter fun e =>
               e.result.getHttp == some 200).length
              == ((doRound P round_idx st).1.filter fun e => isQuoteName e.tool_name).length then
          ⟨true, some (doRound P round_idx st).2.2.quotes, none, round_idx,
            (doRound P round_idx st).2.2.hist⟩
        else run_loop P max_rounds fuel (round_idx + 1) (doRound P round_idx st).2.2 := rfl

/-- The shape invariant of runner3's returned run dict. -/
theorem run_loop_invariant3 (P : Params) (max_rounds : Nat) :
    ∀ (fuel round_idx : Nat) (st : LoopSt) (res : RunResult),
    run_loop P max_rounds fuel round_idx st = res →
    (∀ q ∈ st.quotes, ∃ e ∈ st.hist, isQuoteName e.tool_name = true ∧
      e.result = ToolRes.httpRes 200 q.response ∧ e.args = q.args) →
    1 ≤ round_idx →
    ((res.ok = true → ∃ qs, res.quotes = some qs ∧ qs ≠ [] ∧
        (∀ q ∈ qs, ∃ e ∈ res.tool_history, isQuoteName e.tool_name = true ∧
          e.result = ToolRes.httpRes 200 q.response ∧ e.args = q.args) ∧
        round_idx ≤ res.rounds_used ∧ res.rounds_used ≤ round_idx + fuel - 1) ∧
     (res.ok = false → res.rounds_used = max_rounds ∧ res.quotes = none)) := by
  intro fuel
  induction fuel with
  | zero =>
    intro round_idx st res h hInv hr1
    cases h
    constructor
    · intro h'; exact Bool.noConfusion h'
    · intro _; exact ⟨rfl, rfl⟩
  | succ fuel ih =>
    intro round_idx st res h hInv hr1
    rw [run_loop_step3] at h
    by_cases hcond : (!((doRound P round_idx st).1.filter fun e =>
          isQuoteName e.tool_name).isEmpty &&
        (((doRound P round_idx st).1.filter fun e => isQuoteName e.tool_name).filter fun e =>
           e.result.getHttp == some 200).length
          == ((doRound P round_idx st).1.filter fun e => isQuoteName e.tool_name).length) = true
    · rw [if_pos hcond] at h
      cases h
      obtain ⟨hne, hall⟩ := (successB_iff (doRound P round_idx st).1).mp hcond
      constructor
      · intro _
        refine ⟨(doRound P round_idx st).2.2.quotes, rfl, ?_, ?_, le_refl _, by
          show round_idx ≤ round_idx + (fuel + 1) - 1
          omega⟩
        · obtain ⟨e0, he0⟩ : ∃ e0, e0 ∈ (doRound P round_idx st).1.filter fun e =>
              isQuoteName e.tool_name := by
            cases hl : (doRound P round_idx st).1.filter fun e => isQuoteName e.tool_name with
            | nil => exact absurd hl hne
            | cons a l => exact ⟨a, by simp [hl]⟩
          have he0' := List.mem_filter.mp he0
          have h200 : e0.result.getHttp = some 200 := by simpa using hall e0 he0
          have hq0 : isQuoteName e0.tool_name = true := he0'.2
          have hqs : (processObjs P (extractL
              (P.model P.user_text P.tools_desc (sentinel st.ctx)).toList)).2 ≠ [] := by
            apply processObjs_quote_of_event P _ e0 _ hq0 h200
            exact he0'.1
          intro hcontra
          have hcontra' : st.quotes ++ (processObjs P (extractL
              (P.model P.user_text P.tools_desc (sentinel st.ctx)).toList)).2 = [] := hcontra
          rcases List.append_eq_nil.mp hcontra' with ⟨_, h2⟩
          exact hqs h2
        · intro q hq
          have hq' : q ∈ st.quotes ++ (processObjs P (extractL
              (P.model P.user_text P.tools_desc (sentinel st.ctx)).toList)).2 := hq
          rcases List.mem_append.mp hq' with hql | hqr
          · obtain ⟨e, he, hprop⟩ := hInv q hql
            exact ⟨e, List.mem_append.mpr (Or.inl he), hprop⟩
          · obtain ⟨e, he, hprop⟩ := processObjs_quote_event3 P _ q hqr
            exact ⟨e, List.mem_append.mpr (Or.inr he), hprop⟩
      · intro h'; simp at h'
    · rw [if_neg hcond] at h
      have hInv' : ∀ q ∈ (doRound P round_idx st).2.2.quotes,
          ∃ e ∈ (doRound P round_idx st).2.2.hist, isQuoteName e.tool_name = true ∧
            e.result = ToolRes.httpRes 200 q.response ∧ e.args = q.args := by
        intro q hq
        have hq' : q ∈ st.quotes ++ (processObjs P (extractL
            (P.model P.user_text P.tools_desc (sentinel st.ctx)).toList)).2 := hq
        rcases List.mem_append.mp hq' with hql | hqr
        · obtain ⟨e, he, hprop⟩ := hInv q hql
          exact ⟨e, List.mem_append.mpr (Or.inl he), hprop⟩
        · obtain ⟨e, he, hprop⟩ := processObjs_quote_event3 P _ q hqr
          exact ⟨e, List.mem_append.mpr (Or.inr he), hprop⟩
      have := ih (round_idx + 1) _ res h hInv' (by omega)
      refine ⟨fun hok => ?_, this.2⟩
      obtain ⟨qs', h1, h2, h3, h4, h5⟩ := this.1 hok
      exact ⟨qs', h1, h2, h3, by omega, by omega⟩

end runner3

/-- A well-typed get_shipping_quote argument object: string country and postal
    code, an exact-fraction weight, and an optional service string. -/
def mkQuoteArgs (country postal : String) (n : Int) (d : Nat) (service : Option String) :
    List (String × Json) :=
  [("country", Json.str country), ("postal_code", Json.str postal), ("weight_kg", Json.num n d)]
    ++ (match service with
        | some s => [("service", Json.str s)]
        | none => [])

/-- A well-typed resolve_postal_code argument object with optional string fields. -/
def mkPostalArgs (country city value mode : Option String) : List (String × Json) :=
  (match country with
   | some s => [("country", Json.str s)]
   | none => [])
  ++ (match city with
      | some s => [("city", Json.str s)]
      | none => [])
  ++ (match value with
      | some s => [("value", Json.str s)]
      | none => [])
  ++ (match mode with
      | some s => [("mode", Json.str s)]
      | none => [])

/-- The integer comparisons of the embedded weight check agree with the rational
    bounds 0 and 50 on the weight's value. -/
theorem numVal_bounds (n : Int) (d : Nat) (hd : 0 < d) :
    ((0 : Int) < n ∧ n < 50 * (d : Int)) ↔ ((0 : ℚ) < numVal n d ∧ numVal n d < 50) := by
  have hdq : (0 : ℚ) < (d : ℚ) := by exact_mod_cast hd
  unfold numVal
  constructor
  · rintro ⟨h1, h2⟩
    constructor
    · exact div_pos (by exact_mod_cast h1) hdq
    · rw [div_lt_iff₀ hdq]
      calc ((n : ℚ)) < ((50 * (d : Int) : Int) : ℚ) := by exact_mod_cast h2
        _ = 50 * (d : ℚ) := by push_cast; ring
  · rintro ⟨h1, h2⟩
    constructor
    · have h1' := (lt_div_iff₀ hdq).mp h1
      rw [zero_mul] at h1'
      exact_mod_cast h1'
    · have h2' := (div_lt_iff₀ hdq).mp h2
      have : (n : ℚ) < ((50 * (d : Int) : Int) : ℚ) := by push_cast at h2' ⊢; linarith
      exact_mod_cast this

/-- An option produced by guarding a value is present exactly when the guard
    holds. -/
theorem isSome_ite_some {α : Type} (c : Prop) [Decidable c] (x : α) :
    (if c then some x else none).isSome = true ↔ c := by
  split_ifs with h <;> simp [h]

namespace runner3

/-- The history event one extracted object produces in runner3 (none when the
    object has no truthy tool_name — such objects leave no record at all). -/
def eventFor (P : Params) (obj : Json) : Option Event :=
  let tool_name := (dictGet obj "tool_name").getD Json.null
  let args := (dictGet obj "args").getD (Json.obj [])
  if !jsonTruthy tool_name then none
  else some ⟨tool_name, args, call_tool P.base_url P.transport P.tools tool_name args⟩

/-- The quote one extracted object produces in runner3, if any. -/
def quoteOf (P : Params) (obj : Json) : Option Quote :=
  let tool_name := (dictGet obj "tool_name").getD Json.null
  let args := (dictGet obj "args").getD (Json.obj [])
  if !jsonTruthy tool_name then none
  else
    let res := call_tool P.base_url P.transport P.tools tool_name args
    if isQuoteName tool_name && res.getHttp == some 200 then some ⟨args, res.jsonOf⟩
    else none

/-- runner3's object loop is the catamorphism of its per-object functions: no
    local validation, one event per truthy-named object in extraction order,
    one quote per successful quote invocation in extraction order; objects
    without a truthy tool_name contribute nothing. -/
theorem processObjs_eq3 (P : Params) :
    ∀ objs, processObjs P objs = (objs.filterMap (eventFor P), objs.filterMap (quoteOf P)) := by
  intro objs
  induction objs with
  | nil => rfl
  | cons obj rest ih =>
    rw [processObjs]
    by_cases ht : !jsonTruthy ((dictGet obj "tool_name").getD Json.null)
    · rw [if_pos ht, ih]
      have he : eventFor P obj = none := by rw [eventFor, if_pos ht]
      have hq : quoteOf P obj = none := by rw [quoteOf, if_pos ht]
      simp [List.filterMap_cons, he, hq]
    · rw [if_neg ht]
      simp only [ih]
      have he : eventFor P obj = some ⟨(dictGet obj "tool_name").getD Json.null,
          (dictGet obj "args").getD (Json.obj []),
          call_tool P.base_url P.transport P.tools ((dictGet obj "tool_name").getD Json.null)
            ((dictGet obj "args").getD (Json.obj []))⟩ := by
        rw [eventFor, if_neg ht]
      by_cases hg : (isQuoteName ((dictGet obj "tool_name").getD Json.null) &&
          (call_tool P.base_url P.transport P.tools ((dictGet obj "tool_name").getD Json.null)
            ((dictGet obj "args").getD (Json.obj []))).getHttp == some 200) = true
      · have hq : quoteOf P obj = some ⟨(dictGet obj "args").getD (Json.obj []),
            (call_tool P.base_url P.transport P.tools
              ((dictGet obj "tool_name").getD Json.null)
              ((dictGet obj "args").getD (Json.obj []))).jsonOf⟩ := by
          rw [quoteOf, if_neg ht]
          simp only [hg, if_true, ite_true]
        rw [if_pos hg]
        simp [List.filterMap_cons, he, hq]
      · have hq : quoteOf P obj = none := by
          rw [quoteOf, if_neg ht]
          exact if_neg hg
        rw [if_neg hg]
        simp [List.filterMap_cons, he, hq]

end runner3

namespace runner3

/-- Python hashability of a JSON value: `tool_name not in tools` hashes the
    name, raising TypeError for dicts and lists; scalars and strings hash. -/
def jsonHashable : Json → Bool
  | Json.arr _ => false
  | Json.obj _ => false
  | _ => true

/-- runner3.py `call_tool` (lines 96-108) with faithful exception behaviour:
    `tool_name not in tools` raises TypeError on an unhashable name, and
    `args.items()` runs before the try/except, raising AttributeError on a
    non-dict args (including an explicit `"args": null`); a hashable unknown
    name yields the error dict without any call; only the POST and the body
    decode sit inside the catch-all, where every outcome is normalized — a
    transport exception becomes `{"http": 500, "json": {"error": msg}}` and an
    undecodable body (decode error or recursion overflow, both caught there)
    becomes the same shape with an abstracted message. -/
def call_toolE (limit : Nat) (base_url : String) (transport : Transport)
    (tools : List (String × ToolInfo)) (tool_name : Json) (args : Json) :
    Except PyExn ToolRes :=
  if jsonHashable tool_name = false then Except.error PyExn.typeError
  else
    match (match tool_name with
           | Json.str name => lookupStr tools name
           | _ => none : Option ToolInfo) with
    | none => Except.ok (ToolRes.errorOnly ("Unknown tool: " ++ pyStr tool_name))
    | some ti =>
      match args with
      | Json.obj kvs =>
        Except.ok
          (match transport (base_url ++ ti.path)
              (Json.obj (kvs.filter fun kv =>
                match kv.2 with
                | Json.null => false
                | _ => true)) with
           | TransportResult.exn msg =>
             ToolRes.httpRes 500 (Json.obj [("error", Json.str msg)])
           | TransportResult.resp status body =>
             match json_loads_excL limit body.toList with
             | Except.ok j => ToolRes.httpRes status j
             | Except.error _ =>
               ToolRes.httpRes 500 (Json.obj [("error", Json.str "json-decode-error")]))
      | _ => Except.error PyExn.attributeError

/-- The object loop of runner3's `run_agentic` with faithful exceptions: an
    object without a truthy tool_name is skipped without record; a call that
    raises aborts the loop, leaving the remaining objects unprocessed. -/
def processObjsE (limit : Nat) (P : Params) : List Json → Except PyExn (List Event × List Quote)
  | [] => Except.ok ([], [])
  | obj :: rest =>
    let tool_name := (dictGet obj "tool_name").getD Json.null
    let args := (dictGet obj "args").getD (Json.obj [])
    if !jsonTruthy tool_name then processObjsE limit P rest
    else
      match call_toolE limit P.base_url P.transport P.tools tool_name args with
      | Except.error e => Except.error e
      | Except.ok res =>
        match processObjsE limit P rest with
        | Except.error e => Except.error e
        | Except.ok r =>
          Except.ok (⟨tool_name, args, res⟩ :: r.1,
            if isQuoteName tool_name && res.getHttp == some 200 then
              ⟨args, res.jsonOf⟩ :: r.2
            else r.2)

/-- One round of runner3's loop with faithful exceptions. -/
def doRoundE (limit : Nat) (P : Params) (round_idx : Nat) (st : LoopSt) :
    Except PyExn (List Event × List Quote × LoopSt) :=
  let raw := P.model P.user_text P.tools_desc (sentinel st.ctx)
  match processObjsE limit P (extract_excL limit raw.toList) with
  | Except.error e => Except.error e
  | Except.ok r =>
    Except.ok (r.1, r.2,
      ⟨st.ctx ++ "\nRound " ++ toString round_idx ++ ":\n"
         ++ dumps 100 (Json.arr (r.1.map eventToJson)),
       st.quotes ++ r.2, st.hist ++ r.1⟩)

/-- The round loop of runner3's `run_agentic` with faithful exceptions. -/
def run_loopE (limit : Nat) (P : Params) (max_rounds : Nat) :
    Nat → Nat → LoopSt → Except PyExn RunResult
  | 0, _, st => Except.ok ⟨false, none, some "max_rounds", max_rounds, st.hist⟩
  | fuel + 1, round_idx, st =>
    match doRoundE limit P round_idx st with
    | Except.error e => Except.error e
    | Except.ok t =>
      let quote_calls := t.1.filter fun e => isQuoteName e.tool_name
      let quote_ok := quote_calls.filter fun e => e.result.getHttp == some 200
      if !quote_calls.isEmpty && quote_ok.length == quote_calls.length then
        Except.ok ⟨true, some t.2.2.quotes, none, round_idx, t.2.2.hist⟩
      else run_loopE limit P max_rounds fuel (round_idx + 1) t.2.2

/-- runner3.py `run_agentic` with faithful exceptions. -/
def run_agenticE (limit : Nat) (model : String → String → String → String)
    (user_text base_url : String) (transport : Transport)
    (tools : List (String × ToolInfo)) (max_rounds : Nat) : Except PyExn RunResult :=
  run_loopE limit ⟨model, user_text, base_url, transport, tools, format_tools_for_prompt tools⟩
    max_rounds max_rounds 1 ⟨"", [], []⟩

/-- An extracted object whose processing cannot raise: its tool_name is not
    truthy, or invoking it returns without an exception. -/
def benignB (limit : Nat) (P : Params) (obj : Json) : Bool :=
  !jsonTruthy ((dictGet obj "tool_name").getD Json.null) ||
    (match call_toolE limit P.base_url P.transport P.tools
        ((dictGet obj "tool_name").getD Json.null)
        ((dictGet obj "args").getD (Json.obj [])) with
     | Except.ok _ => true
     | Except.error _ => false)

/-- The history event one extracted object produces in the exception-faithful
    loop, when it does not raise. -/
def eventForE (limit : Nat) (P : Params) (obj : Json) : Option Event :=
  let tool_name := (dictGet obj "tool_name").getD Json.null
  let args := (dictGet obj "args").getD (Json.obj [])
  if !jsonTruthy tool_name then none
  else
    match call_toolE limit P.base_url P.transport P.tools tool_name args with
    | Except.ok res => some ⟨tool_name, args, res⟩
    | Except.error _ => none

/-- The quote one extracted object produces in the exception-faithful loop. -/
def quoteOfE (limit : Nat) (P : Params) (obj : Json) : Option Quote :=
  let tool_name := (dictGet obj "tool_name").getD Json.null
  let args := (dictGet obj "args").getD (Json.obj [])
  if !jsonTruthy tool_name then none
  else
    match call_toolE limit P.base_url P.transport P.tools tool_name args with
    | Except.ok res =>
      if isQuoteName tool_name && res.getHttp == some 200 then some ⟨args, res.jsonOf⟩
      else none
    | Except.error _ => none

/-- The data of a round that completed without raising (with a default for the
    error case), used to state concrete instantiations. -/
def roundData (limit : Nat) (P : Params) (r : Nat) (st : LoopSt) :
    List Event × List Quote × LoopSt :=
  match doRoundE limit P r st with
  | Except.ok t => t
  | Except.error _ => ([], [], st)

/-- A benign truthy object's call returns without raising. -/
theorem benign_call_ok3 (limit : Nat) (P : Params) (obj : Json)
    (hben : benignB limit P obj = true)
    (ht : ¬(!jsonTruthy ((dictGet obj "tool_name").getD Json.null)) = true) :
    ∃ res, call_toolE limit P.base_url P.transport P.tools
        ((dictGet obj "tool_name").getD Json.null)
        ((dictGet obj "args").getD (Json.obj [])) = Except.ok res := by
  rw [benignB] at hben
  rcases (Bool.or_eq_true _ _).mp hben with ht' | hc
  · exact absurd ht' ht
  · rcases hres : call_toolE limit P.base_url P.transport P.tools
        ((dictGet obj "tool_name").getD Json.null)
        ((dictGet obj "args").getD (Json.obj [])) with e' | res
    · rw [hres] at hc; simp at hc
    · exact ⟨res, rfl⟩

/-- On benign objects the exception-faithful object loop returns and is the
    catamorphism of its per-object functions, in extraction order. -/
theorem processObjsE_eq3 (limit : Nat) (P : Params) :
    ∀ objs : List Json, (∀ obj ∈ objs, benignB limit P obj = true) →
    processObjsE limit P objs
      = Except.ok (objs.filterMap (eventForE limit P), objs.filterMap (quoteOfE limit P)) := by
  intro objs
  induction objs with
  | nil => intro _; rfl
  | cons obj rest ih =>
    intro h
    have hobj := h obj (by simp)
    have hrest := ih (fun q hq => h q (by simp [hq]))
    rw [processObjsE]
    by_cases ht : !jsonTruthy ((dictGet obj "tool_name").getD Json.null)
    · rw [if_pos ht, hrest]
      have he : eventForE limit P obj = none := by rw [eventForE, if_pos ht]
      have hq : quoteOfE limit P obj = none := by rw [quoteOfE, if_pos ht]
      simp [List.filterMap_cons, he, hq]
    · rw [if_neg ht]
      obtain ⟨res, hres⟩ := benign_call_ok3 limit P obj hobj ht
      have he : eventForE limit P obj = some ⟨(dictGet obj "tool_name").getD Json.null,
          (dictGet obj "args").getD (Json.obj []), res⟩ := by
        rw [eventForE, if_neg ht, hres]
      by_cases hg : (isQuoteName ((dictGet obj "tool_name").getD Json.null) &&
          res.getHttp == some 200) = true
      · have hq : quoteOfE limit P obj = some ⟨(dictGet obj "args").getD (Json.obj []),
            res.jsonOf⟩ := by
          rw [quoteOfE, if_neg ht, hres]
          simp [hg]
        simp only [hres, hrest]
        simp [List.filterMap_cons, he, hq, hg]
      · have hq : quoteOfE limit P obj = none := by
          rw [quoteOfE, if_neg ht, hres]
          simp [hg]
        simp only [hres, hrest]
        simp [List.filterMap_cons, he, hq, hg]

/-- A call that raises aborts the object loop: whatever extracted objects
    follow it are never processed, and benign objects before it do not mask
    the exception. -/
theorem processObjsE_raise3 (limit : Nat) (P : Params) (e : PyExn) :
    ∀ (objs₁ : List Json) (obj : Json) (objs₂ : List Json),
    (∀ o ∈ objs₁, benignB limit P o = true) →
    jsonTruthy ((dictGet obj "tool_name").getD Json.null) = true →
    call_toolE limit P.base_url P.transport P.tools
        ((dictGet obj "tool_name").getD Json.null)
        ((dictGet obj "args").getD (Json.obj [])) = Except.error e →
    processObjsE limit P (objs₁ ++ obj :: objs₂) = Except.error e := by
  intro objs₁
  induction objs₁ with
  | nil =>
    intro obj objs₂ _ ht hc
    rw [List.nil_append, processObjsE, if_neg (by rw [ht]; decide)]
    simp only [hc]
  | cons o rest ih =>
    intro obj objs₂ hben ht hc
    rw [List.cons_append, processObjsE]
    by_cases hto : !jsonTruthy ((dictGet o "tool_name").getD Json.null)
    · rw [if_pos hto]
      exact ih obj objs₂ (fun q hq => hben q (by simp [hq])) ht hc
    · rw [if_neg hto]
      obtain ⟨res, hres⟩ := benign_call_ok3 limit P o (hben o (by simp)) hto
      simp only [hres]
      rw [ih obj objs₂ (fun q hq => hben q (by simp [hq])) ht hc]

/-- One step of the exception-faithful round loop on a round that returned. -/
theorem run_loopE_step3 (limit : Nat) (P : Params) (max_rounds fuel round_idx : Nat)
    (st : LoopSt) (t : List Event × List Quote × LoopSt)
    (h : doRoundE limit P round_idx st = Except.ok t) :
    run_loopE limit P max_rounds (fuel + 1) round_idx st
      = if !(t.1.filter fun e => isQuoteName e.tool_name).isEmpty &&
            ((t.1.filter fun e => isQuoteName e.tool_name).filter fun e =>
               e.result.getHttp == some 200).length
              == (t.1.filter fun e => isQuoteName e.tool_name).length then
          Except.ok ⟨true, some t.2.2.quotes, none, round_idx, t.2.2.hist⟩
        else run_loopE limit P max_rounds fuel (round_idx + 1) t.2.2 := by
  simp only [run_loopE, h]

/-- A round that raises aborts the run with the exception. -/
theorem run_loopE_raise3 (limit : Nat) (P : Params) (max_rounds fuel round_idx : Nat)
    (st : LoopSt) (e : PyExn) (h : doRoundE limit P round_idx st = Except.error e) :
    run_loopE limit P max_rounds (fuel + 1) round_idx st = Except.error e := by
  simp only [run_loopE, h]

end runner3

namespace runner2

/-- The round loop of runner2's `run_agentic` with faithful exceptions: a
    RecursionError escaping the extractor, or a transport exception escaping
    `call_tool`, aborts the run. -/
def run_loopE (limit : Nat) (P : Params) (trace_id : String) (max_rounds : Nat) :
    Nat → Nat → LoopSt → Except PyExn RunResult
  | 0, _, st =>
    Except.ok ⟨trace_id, false, none, some "no_quote_within_max_rounds", max_rounds,
      st.hist, none⟩
  | fuel + 1, round_idx, st =>
    let raw := rawOf P st
    match extract_exc limit raw.toList with
    | Except.error e => Except.error e
    | Except.ok objs =>
      match processObjs P trace_id round_idx objs with
      | Except.error msg => Except.error (PyExn.requestError msg)
      | Except.ok (entries, evs, qs) =>
        let quotes' := st.quotes ++ qs
        let hist' := st.hist ++ evs
        if !quotes'.isEmpty then
          Except.ok ⟨trace_id, true, some quotes', none, round_idx, hist', some raw⟩
        else
          run_loopE limit P trace_id max_rounds fuel (round_idx + 1)
            ⟨ctxAppend st.ctx round_idx entries, quotes', hist'⟩

/-- runner2.py `run_agentic` with faithful exceptions. -/
def run_agenticE (limit : Nat) (P : Params) (trace_id : String) (max_rounds : Nat) :
    Except PyExn RunResult :=
  run_loopE limit P trace_id max_rounds max_rounds 1 ⟨"", [], []⟩

/-- One step of the exception-faithful round loop on a round whose extraction
    and calls returned. -/
theorem run_loopE_step2 (limit : Nat) (P : Params) (trace_id : String)
    (max_rounds fuel round_idx : Nat) (st : LoopSt) (objs : List Json)
    (entries : List RoundEntry) (evs : List Event) (qs : List Quote)
    (hx : extract_exc limit (rawOf P st).toList = Except.ok objs)
    (hp : processObjs P trace_id round_idx objs = Except.ok (entries, evs, qs)) :
    run_loopE limit P trace_id max_rounds (fuel + 1) round_idx st
      = if !(st.quotes ++ qs).isEmpty then
          Except.ok ⟨trace_id, true, some (st.quotes ++ qs), none, round_idx,
            st.hist ++ evs, some (rawOf P st)⟩
        else run_loopE limit P trace_id max_rounds fuel (round_idx + 1)
          ⟨ctxAppend st.ctx round_idx entries, st.quotes ++ qs, st.hist ++ evs⟩ := by
  simp only [run_loopE, hx, hp]

/-- A round whose extraction raises aborts the run with the exception. -/
theorem run_loopE_raise2 (limit : Nat) (P : Params) (trace_id : String)
    (max_rounds fuel round_idx : Nat) (st : LoopSt) (e : PyExn)
    (hx : extract_exc limit (rawOf P st).toList = Except.error e) :
    run_loopE limit P trace_id max_rounds (fuel + 1) round_idx st = Except.error e := by
  simp only [run_loopE, hx]

/-- The returned tool history of the exception-faithful loop always extends
    the incoming one (append-only). -/
theorem run_loopE_hist2 (limit : Nat) (P : Params) (trace_id : String) (max_rounds : Nat) :
    ∀ (fuel round_idx : Nat) (st : LoopSt) (res : RunResult),
    run_loopE limit P trace_id max_rounds fuel round_idx st = Except.ok res →
    ∃ sfx, res.tool_history = st.hist ++ sfx := by
  intro fuel
  induction fuel with
  | zero =>
    intro round_idx st res h
    cases h
    exact ⟨[], by simp⟩
  | succ fuel ih =>
    intro round_idx st res h
    rw [run_loopE] at h
    rcases hx : extract_exc limit (rawOf P st).toList with e' | objs <;> rw [hx] at h <;>
      simp only [] at h
    · cases h
    · rcases hp : processObjs P trace_id round_idx objs with e' | ⟨entries, evs, qs⟩ <;>
        rw [hp] at h <;> simp only [] at h
      · cases h
      · by_cases hne : !(st.quotes ++ qs).isEmpty
        · rw [if_pos hne] at h
          cases h
          exact ⟨evs, rfl⟩
        · rw [if_neg hne] at h
          obtain ⟨sfx, hsfx⟩ := ih (round_idx + 1) _ res h
          exact ⟨evs ++ sfx, by simpa [List.append_assoc] using hsfx⟩

end runner2

/-- A transport that always answers 200 with a fixed priced-quote body. -/
def okTransport : Transport := fun _ _ =>
  TransportResult.resp 200 "\x7b\"currency\": \"EUR\", \"price\": 12.5, \"service\": \"express\"\x7d"

/-- A transport that rejects calls whose payload carries country "AT" with 422
    and accepts everything else with 200. -/
def mixedTransport : Transport := fun _ payload =>
  match payload with
  | Json.obj kvs =>
    match lookupKey kvs "country" with
    | some (Json.str s) =>
      if s = "AT" then TransportResult.resp 422 "\x7b\"error\": \"bad_postal\"\x7d"
      else TransportResult.resp 200 "\x7b\"price\": 12.5\x7d"
    | _ => TransportResult.resp 200 "\x7b\"price\": 12.5\x7d"
  | _ => TransportResult.resp 200 "\x7b\"price\": 12.5\x7d"

/-- A transport modelling an unreachable endpoint: every call raises. -/
def downTransport : Transport := fun _ _ => TransportResult.exn "connection refused"

/-- A model reply with one valid get_shipping_quote call for DE. -/
def quoteCallDE : String :=
  "\x7b\"tool_name\":\"get_shipping_quote\",\"args\":\x7b\"country\":\"DE\",\"postal_code\":\"10115\",\"weight_kg\":1,\"service\":\"express\"\x7d\x7d"

/-- A second valid get_shipping_quote call, for AT, which `mixedTransport`
    rejects. -/
def quoteCallAT : String :=
  "\x7b\"tool_name\":\"get_shipping_quote\",\"args\":\x7b\"country\":\"AT\",\"postal_code\":\"1010\",\"weight_kg\":2\x7d\x7d"

/-- A model reply containing two quote calls. -/
def twoQuoteReply : String := quoteCallDE ++ " " ++ quoteCallAT

/-- A minimal runner3 tool table exposing the three operations. -/
def toolTable : List (String × runner3.ToolInfo) :=
  [("resolve_country", ⟨"/v1/resolve/country", "", "", ""⟩),
   ("resolve_postal_code", ⟨"/v1/resolve/postal", "", "", ""⟩),
   ("get_shipping_quote", ⟨"/v1/shipping/quote", "", "", ""⟩)]

/-- A doubly guarded option is present exactly when both guards hold. -/
theorem isSome_ite_ite_some {α : Type} (c d : Prop) [Decidable c] [Decidable d] (x : α) :
    (if c then (if d then some x else none) else none).isSome = true ↔ (c ∧ d) := by
  split_ifs <;> simp_all

/-- C4 counterexample: a text with two well-formed top-level object spans, the
    second nested beyond a recursion limit of 3.  The deep span is well-formed
    — the recursion-unbounded reading parses it and the span automaton closes
    it exactly at its last character — yet runner2's extractor raises
    RecursionError instead of returning two objects, and runner3's silently
    drops the deep span and returns one. -/
theorem c4_counterexample :
    runner2.extract_exc 3 "foo \x7b\"a\":1\x7d bar \x7b\"a\":[[[1]]]\x7d".toList
      = Except.error PyExn.recursionError
    ∧ runner3.extract_excL 3 "foo \x7b\"a\":1\x7d bar \x7b\"a\":[[[1]]]\x7d".toList
      = [Json.obj [("a", Json.num 1 1)]]
    ∧ json_loadsL "\x7b\"a\":[[[1]]]\x7d".toList
      = some (Json.obj [("a", Json.arr [Json.arr [Json.arr [Json.num 1 1]]])])
    ∧ spanOkB "\x7b\"a\":[[[1]]]\x7d".toList = true :=
  ⟨rfl, rfl, rfl, rfl⟩

/-- C4 (amended): on any text interleaving brace-free narration with k
    well-formed top-level object spans each of which parses within the
    recursion limit, both extractors return exactly the k parsed objects in
    left-to-right order (nested objects are never separately emitted, only
    their outermost span); in particular `foo {"a":1} bar {"b":{"c":2}} baz`
    yields exactly the two objects.  A well-formed span nested beyond the
    limit instead makes runner2's extractor raise and is silently dropped by
    runner3's (see `c4_counterexample`). -/
theorem c4_extractor_interleaving :
    (∀ (limit : Nat) (segs : List (List Char × List Char)) (tail : List Char),
      (∀ p ∈ segs, (∀ c ∈ p.1, c ≠ lbrace) ∧ spanOkB p.2 = true ∧
        ((json_loads_excL limit p.2).toOption).isSome = true) →
      (∀ c ∈ tail, c ≠ lbrace) →
      runner2.extract_exc limit (flatSegs segs ++ tail)
          = Except.ok ((segs.map (·.2)).filterMap fun sp =>
              (json_loads_excL limit sp).toOption)
      ∧ runner3.extract_excL limit (flatSegs segs ++ tail)
          = (segs.map (·.2)).filterMap (fun sp => (json_loads_excL limit sp).toOption)
      ∧ ((segs.map (·.2)).filterMap fun sp =>
          (json_loads_excL limit sp).toOption).length = segs.length)
  ∧ runner2.extract_exc 1000 "foo \x7b\"a\":1\x7d bar \x7b\"b\":\x7b\"c\":2\x7d\x7d baz".toList
      = Except.ok [Json.obj [("a", Json.num 1 1)],
          Json.obj [("b", Json.obj [("c", Json.num 2 1)])]]
  ∧ runner3.extract_excL 1000 "foo \x7b\"a\":1\x7d bar \x7b\"b\":\x7b\"c\":2\x7d\x7d baz".toList
      = [Json.obj [("a", Json.num 1 1)], Json.obj [("b", Json.obj [("c", Json.num 2 1)])]] := by
  refine ⟨?_, rfl, rfl⟩
  intro limit segs tail hsegs htail
  have hspans : capturedSpansL (flatSegs segs ++ tail) = segs.map (·.2) := by
    have h := scanSpans_interleaved segs tail [] [] 0 false false
      (fun p hp => ⟨(hsegs p hp).1, (hsegs p hp).2.1⟩) htail
    simp only [List.nil_append, List.length_nil] at h
    unfold capturedSpansL
    exact h
  have hsome : ∀ sp ∈ segs.map (·.2),
      ((json_loads_excL limit sp).toOption).isSome = true := by
    intro sp hsp
    obtain ⟨p, hp, hpx⟩ := List.mem_map.mp hsp
    rw [← hpx]
    exact (hsegs p hp).2.2
  refine ⟨?_, ?_, ?_⟩
  · rw [extract_exc_eq, hspans]
    exact collectE_ok_of_isSome limit (segs.map (·.2)) hsome
  · rw [extract_excL3_eq, hspans]
  · rw [filterMap_length_of_isSome _ _ hsome, List.length_map]

/-- Witness for C4: the spec's example text, decomposed into two
    narration/span segments and a tail, at recursion limit 1000. -/
theorem c4_witness :
    runner2.extract_exc 1000 (flatSegs [("foo ".toList, "\x7b\"a\":1\x7d".toList),
        (" bar ".toList, "\x7b\"b\":\x7b\"c\":2\x7d\x7d".toList)] ++ " baz".toList)
      = Except.ok (([("foo ".toList, "\x7b\"a\":1\x7d".toList),
          (" bar ".toList, "\x7b\"b\":\x7b\"c\":2\x7d\x7d".toList)].map (·.2)).filterMap
          fun sp => (json_loads_excL 1000 sp).toOption)
    ∧ (([("foo ".toList, "\x7b\"a\":1\x7d".toList),
          (" bar ".toList, "\x7b\"b\":\x7b\"c\":2\x7d\x7d".toList)].map (·.2)).filterMap
          fun sp => (json_loads_excL 1000 sp).toOption).length = 2 := by
  have h := c4_extractor_interleaving.1 1000 [("foo ".toList, "\x7b\"a\":1\x7d".toList),
      (" bar ".toList, "\x7b\"b\":\x7b\"c\":2\x7d\x7d".toList)] " baz".toList
    (by decide) (by decide)
  exact ⟨h.1, h.2.2⟩

/-- C5 counterexample: a captured brace-balanced span nested beyond a recursion
    limit of 3 makes runner2's extraction raise RecursionError — `except
    json.JSONDecodeError` does not catch it — while runner3's bare except
    drops the span silently. -/
theorem c5_counterexample :
    runner2.extract_exc 3 "\x7b\"a\":[[[1]]]\x7d".toList
      = Except.error PyExn.recursionError
    ∧ runner3.extract_excL 3 "\x7b\"a\":[[[1]]]\x7d".toList = [] :=
  ⟨rfl, rfl⟩

/-- C5 (amended): runner3's extractor never raises — its bare `except:` drops
    any captured span whose parse fails, decode errors and recursion overflows
    alike; runner2's extractor drops spans only on decode errors and raises
    exactly when some captured span is nested beyond the recursion limit (see
    `c5_counterexample`); the unterminated input `{"x":1` yields zero objects
    in both. -/
theorem c5_extractor_total :
    (∀ (limit : Nat) (text : List Char),
      runner2.extract_exc limit text = collectE limit (capturedSpansL text))
  ∧ (∀ (limit : Nat) (text : List Char),
      runner3.extract_excL limit text
        = (capturedSpansL text).filterMap fun sp => (json_loads_excL limit sp).toOption)
  ∧ (∀ (limit : Nat) (text : List Char),
      (runner2.extract_exc limit text = Except.error PyExn.recursionError ↔
        ∃ sp ∈ capturedSpansL text,
          json_loads_excL limit sp = Except.error PyErr.recursionError))
  ∧ (∀ limit : Nat, runner2.extract_exc limit "\x7b\"x\":1".toList = Except.ok [])
  ∧ (∀ limit : Nat, runner3.extract_excL limit "\x7b\"x\":1".toList = []) := by
  refine ⟨extract_exc_eq, extract_excL3_eq, ?_, ?_, ?_⟩
  · intro limit text
    rw [extract_exc_eq]
    exact collectE_error_iff limit (capturedSpansL text)
  · intro limit
    rw [extract_exc_eq, show capturedSpansL "\x7b\"x\":1".toList = [] from rfl]
    rfl
  · intro limit
    rw [extract_excL3_eq, show capturedSpansL "\x7b\"x\":1".toList = [] from rfl]
    rfl

/-- C6: the get_shipping_quote validator accepts a well-typed argument object
    iff the country is exactly 2 characters, the postal code length is between
    3 and 12, the weight is strictly between 0 and 50 (exclusive bounds), and
    the service, defaulting to standard, is standard or express; weight 0 and
    weight 50 are rejected while 49.9 is accepted. -/
theorem c6_quote_validator :
    (∀ (country postal : String) (n : Int) (d : Nat) (service : Option String), 0 < d →
      ((runner2.QuoteArgs.validate (mkQuoteArgs country postal n d service)).isSome = true ↔
        (country.length = 2 ∧ 3 ≤ postal.length ∧ postal.length ≤ 12 ∧
         0 < numVal n d ∧ numVal n d < 50 ∧
         (service = none ∨ service = some "standard" ∨ service = some "express"))))
  ∧ (∀ (c p : String) (n : Int) (d : Nat),
      runner2.QuoteArgs.validate (mkQuoteArgs c p n d none)
        = runner2.QuoteArgs.validate (mkQuoteArgs c p n d (some "standard")))
  ∧ numVal 499 10 = 49.9
  ∧ (runner2.QuoteArgs.validate (mkQuoteArgs "DE" "10115" 0 1 none)).isSome = false
  ∧ (runner2.QuoteArgs.validate (mkQuoteArgs "DE" "10115" 499 10 none)).isSome = true
  ∧ (runner2.QuoteArgs.validate (mkQuoteArgs "DE" "10115" 50 1 none)).isSome = false := by
  refine ⟨?_, ?_, by norm_num [numVal], rfl, rfl, rfl⟩
  · intro country postal n d service hd
    cases service with
    | none =>
      rw [show runner2.QuoteArgs.validate (mkQuoteArgs country postal n d none)
          = if 2 ≤ country.length ∧ country.length ≤ 2 ∧ 3 ≤ postal.length ∧
              postal.length ≤ 12 ∧ 0 < n ∧ n < 50 * (d : Int) then
              some ⟨country, postal, n, d, "standard"⟩
            else none from rfl]
      rw [isSome_ite_some]
      constructor
      · rintro ⟨h1, h2, h3, h4, h5, h6⟩
        have hw := (numVal_bounds n d hd).mp ⟨h5, h6⟩
        exact ⟨by omega, h3, h4, hw.1, hw.2, Or.inl rfl⟩
      · rintro ⟨h1, h2, h3, h4, h5, _⟩
        have hw := (numVal_bounds n d hd).mpr ⟨h4, h5⟩
        exact ⟨by omega, by omega, h2, h3, hw.1, hw.2⟩
    | some s =>
      rw [show runner2.QuoteArgs.validate (mkQuoteArgs country postal n d (some s))
          = if 2 ≤ country.length ∧ country.length ≤ 2 ∧ 3 ≤ postal.length ∧
              postal.length ≤ 12 ∧ 0 < n ∧ n < 50 * (d : Int) then
              (if s = "standard" ∨ s = "express" then
                some ⟨country, postal, n, d, s⟩
              else none)
            else none from rfl]
      rw [isSome_ite_ite_some]
      constructor
      · rintro ⟨⟨h1, h2, h3, h4, h5, h6⟩, hs⟩
        have hw := (numVal_bounds n d hd).mp ⟨h5, h6⟩
        refine ⟨by omega, h3, h4, hw.1, hw.2, ?_⟩
        rcases hs with hs | hs
        · exact Or.inr (Or.inl (by rw [hs]))
        · exact Or.inr (Or.inr (by rw [hs]))
      · rintro ⟨h1, h2, h3, h4, h5, hs⟩
        have hw := (numVal_bounds n d hd).mpr ⟨h4, h5⟩
        refine ⟨⟨by omega, by omega, h2, h3, hw.1, hw.2⟩, ?_⟩
        rcases hs with hs | hs | hs
        · cases hs
        · exact Or.inl (Option.some.inj hs)
        · exact Or.inr (Option.some.inj hs)
  · intro c p n d
    rfl

/-- Witness for C6: the universal part applied at the valid call
    (country DE, postal 10115, weight 49.9, default service). -/
theorem c6_witness :
    (runner2.QuoteArgs.validate (mkQuoteArgs "DE" "10115" 499 10 none)).isSome = true ↔
      (("DE" : String).length = 2 ∧ 3 ≤ ("10115" : String).length ∧
       ("10115" : String).length ≤ 12 ∧ 0 < numVal 499 10 ∧ numVal 499 10 < 50 ∧
       ((none : Option String) = none ∨ (none : Option String) = some "standard" ∨
        (none : Option String) = some "express")) :=
  c6_quote_validator.1 "DE" "10115" 499 10 none (by decide)

/-- C7: the local resolve_postal_code validator constrains only the mode
    (lookup_city / validate_postal, defaulting to lookup_city) and passes any
    combination of the optional fields through, while the remote operation
    itself rejects a lookup_city call without country or city and a
    validate_postal call without value. -/
theorem c7_postal_validator :
    (∀ (country city value mode : Option String),
      ((runner2.ResolverPostalArgs.validate (mkPostalArgs country city value mode)).isSome
          = true ↔
        (mode = none ∨ mode = some "lookup_city" ∨ mode = some "validate_postal")))
  ∧ (∀ (country city value : Option String),
      runner2.ResolverPostalArgs.validate (mkPostalArgs country city value none)
        = runner2.ResolverPostalArgs.validate
            (mkPostalArgs country city value (some "lookup_city")))
  ∧ (∀ (city value : Option String) (tr : String),
      (mainpy.resolve_postal ⟨none, city, value, "lookup_city"⟩ tr).error
        = some "missing_country_or_city")
  ∧ (∀ (country value : Option String) (tr : String),
      (mainpy.resolve_postal ⟨country, none, value, "lookup_city"⟩ tr).error
        = some "missing_country_or_city")
  ∧ (∀ (country city : Option String) (tr : String),
      (mainpy.resolve_postal ⟨country, city, none, "validate_postal"⟩ tr).error
        = some "not_a_postal_code") := by
  refine ⟨?_, ?_, ?_, ?_, ?_⟩
  · intro country city value mode
    cases mode with
    | none =>
      refine iff_of_true ?_ (Or.inl rfl)
      cases country <;> cases city <;> cases value <;> rfl
    | some s =>
      rcases Classical.em (s = "lookup_city" ∨ s = "validate_postal") with hs | hs
      · refine iff_of_true ?_ ?_
        · rcases hs with hs | hs <;> subst hs <;>
            cases country <;> cases city <;> cases value <;> rfl
        · rcases hs with hs | hs
          · exact Or.inr (Or.inl (by rw [hs]))
          · exact Or.inr (Or.inr (by rw [hs]))
      · push_neg at hs
        refine iff_of_false ?_ (by simp [hs.1, hs.2])
        cases country <;> cases city <;> cases value <;>
          simp [runner2.ResolverPostalArgs.validate, mkPostalArgs, runner2.optStrField,
            lookupKey, hs.1, hs.2]
  · intro country city value
    cases country <;> cases city <;> cases value <;> rfl
  · intro city value tr
    rfl
  · intro country value tr
    cases country with
    | none => rfl
    | some c => simp [mainpy.resolve_postal, mainpy.pyTruthyStr]
  · intro country city tr
    rfl

/-- C1 counterexample: a runner2 run whose single round issues two
    get_shipping_quote invocations, one succeeding (http 200) and one failing
    (http 422), still concludes SUCCESS with ok=true and rounds_used=1 —
    refuting the claim that a round with any failed quote invocation never
    concludes the run. -/
theorem c1_counterexample :
    (runner2.run_agenticE 1000 ⟨fun _ _ => twoQuoteReply, "user", "http://localhost:9000",
        mixedTransport⟩ "t-1" 3).map (fun r => (r.ok, r.rounds_used,
          r.tool_history.map fun e => (e.tool_name, e.result.http)))
      = Except.ok (true, 1, [("get_shipping_quote", 200), ("get_shipping_quote", 422)])
    ∧ (422 : Nat) ≠ 200 :=
  ⟨rfl, by decide⟩

/-- C1 (amended): runner3's orchestrator implements the completion rule as
    stated on every round that completes without raising — SUCCESS at the end
    of the round iff at least one get_shipping_quote invocation was issued in
    it and all of them returned http 200, in which case it returns all quotes
    collected so far with rounds_used = the current round index; otherwise the
    round never concludes the run; a round that raises aborts the run with the
    exception instead of transitioning.  runner2's orchestrator, on a round
    whose extraction and calls return, instead concludes SUCCESS as soon as
    its quote accumulator is nonempty — i.e. iff at least one quote invocation
    succeeded, regardless of other failed quote invocations of the round. -/
theorem c1_completion_rule :
    (∀ (limit : Nat) (P : runner3.Params) (max_rounds fuel round_idx : Nat)
        (st : runner3.LoopSt) (t : List runner3.Event × List runner3.Quote × runner3.LoopSt),
      runner3.doRoundE limit P round_idx st = Except.ok t →
      ((t.1.filter fun e => runner3.isQuoteName e.tool_name) ≠ [] ∧
        ∀ e ∈ t.1.filter fun e => runner3.isQuoteName e.tool_name,
          e.result.getHttp = some 200) →
      runner3.run_loopE limit P max_rounds (fuel + 1) round_idx st
        = Except.ok ⟨true, some t.2.2.quotes, none, round_idx, t.2.2.hist⟩)
  ∧ (∀ (limit : Nat) (P : runner3.Params) (max_rounds fuel round_idx : Nat)
        (st : runner3.LoopSt) (t : List runner3.Event × List runner3.Quote × runner3.LoopSt),
      runner3.doRoundE limit P round_idx st = Except.ok t →
      ((t.1.filter fun e => runner3.isQuoteName e.tool_name) = [] ∨
       ∃ e ∈ t.1.filter fun e => runner3.isQuoteName e.tool_name,
          e.result.getHttp ≠ some 200) →
      runner3.run_loopE limit P max_rounds (fuel + 1) round_idx st
        = runner3.run_loopE limit P max_rounds fuel (round_idx + 1) t.2.2)
  ∧ (∀ (limit : Nat) (P : runner3.Params) (max_rounds fuel round_idx : Nat)
        (st : runner3.LoopSt) (e : PyExn),
      runner3.doRoundE limit P round_idx st = Except.error e →
      runner3.run_loopE limit P max_rounds (fuel + 1) round_idx st = Except.error e)
  ∧ (∀ (limit : Nat) (Q : runner2.Params) (trace_id : String)
        (max_rounds fuel round_idx : Nat) (st : runner2.LoopSt) (objs : List Json)
        (entries : List runner2.RoundEntry) (evs : List runner2.Event)
        (qs : List runner2.Quote),
      runner2.extract_exc limit (runner2.rawOf Q st).toList = Except.ok objs →
      runner2.processObjs Q trace_id round_idx objs = Except.ok (entries, evs, qs) →
      st.quotes = [] →
      ((qs ≠ [] →
        runner2.run_loopE limit Q trace_id max_rounds (fuel + 1) round_idx st
          = Except.ok ⟨trace_id, true, some qs, none, round_idx, st.hist ++ evs,
              some (runner2.rawOf Q st)⟩)
      ∧ (qs = [] →
        runner2.run_loopE limit Q trace_id max_rounds (fuel + 1) round_idx st
          = runner2.run_loopE limit Q trace_id max_rounds fuel (round_idx + 1)
              ⟨runner2.ctxAppend st.ctx round_idx entries, qs, st.hist ++ evs⟩))) := by
  refine ⟨?_, ?_, ?_, ?_⟩
  · intro limit P max_rounds fuel round_idx st t h hsucc
    rw [runner3.run_loopE_step3 limit P max_rounds fuel round_idx st t h,
      if_pos ((runner3.successB_iff t.1).mpr hsucc)]
  · intro limit P max_rounds fuel round_idx st t h hfail
    rw [runner3.run_loopE_step3 limit P max_rounds fuel round_idx st t h, if_neg ?hc]
    case hc =>
      intro hc
      obtain ⟨hne, hall⟩ := (runner3.successB_iff t.1).mp hc
      rcases hfail with hfail | ⟨e, he, hne200⟩
      · exact hne hfail
      · exact hne200 (hall e he)
  · intro limit P max_rounds fuel round_idx st e h
    exact runner3.run_loopE_raise3 limit P max_rounds fuel round_idx st e h
  · intro limit Q trace_id max_rounds fuel round_idx st objs entries evs qs hx hp hq0
    have hstep := runner2.run_loopE_step2 limit Q trace_id max_rounds fuel round_idx st
      objs entries evs qs hx hp
    rw [hq0] at hstep
    simp only [List.nil_append] at hstep
    constructor
    · intro hqs
      rw [hstep, if_pos ?hc1]
      case hc1 =>
        cases qs with
        | nil => exact absurd rfl hqs
        | cons a l => rfl
    · intro hqs
      rw [hstep, if_neg (by rw [hqs]; simp)]

/-- A runner3 run whose first-round reply is one valid, remotely accepted
    get_shipping_quote call. -/
def P3q : runner3.Params :=
  ⟨fun _ _ _ => quoteCallDE, "user", "http://localhost:9000", okTransport, toolTable,
   runner3.format_tools_for_prompt toolTable⟩

/-- A runner3 run whose model never emits a tool call. -/
def P3e : runner3.Params :=
  ⟨fun _ _ _ => "", "user", "http://localhost:9000", okTransport, toolTable,
   runner3.format_tools_for_prompt toolTable⟩

/-- A runner2 run whose first-round reply is one valid, remotely accepted
    get_shipping_quote call. -/
def Q2q : runner2.Params :=
  ⟨fun _ _ => quoteCallDE, "user", "http://localhost:9000", okTransport⟩

/-- A runner2 run whose model never emits a tool call. -/
def Q2e : runner2.Params :=
  ⟨fun _ _ => "", "user", "http://localhost:9000", okTransport⟩

/-- A runner3 run whose model emits a get_shipping_quote call with list-valued
    args, on which runner3's `args.items()` raises AttributeError. -/
def P3bad : runner3.Params :=
  ⟨fun _ _ _ => "\x7b\"tool_name\":\"get_shipping_quote\",\"args\":[1]\x7d", "user",
   "http://localhost:9000", okTransport, toolTable,
   runner3.format_tools_for_prompt toolTable⟩

/-- The always-200 transport never raises. -/
theorem okTransport_noRaise : NoRaise okTransport := fun _ _ =>
  ⟨200, "\x7b\"currency\": \"EUR\", \"price\": 12.5, \"service\": \"express\"\x7d", rfl⟩

/-- Witness for C1: the four parts applied at concrete runs — a succeeding
    first round for runner3, a quoteless round for runner3, a raising round
    for runner3, and a succeeding first round for runner2. -/
theorem c1_witness :
    (runner3.run_loopE 1000 P3q 3 3 1 ⟨"", [], []⟩
      = Except.ok ⟨true, some (runner3.roundData 1000 P3q 1 ⟨"", [], []⟩).2.2.quotes, none, 1,
          (runner3.roundData 1000 P3q 1 ⟨"", [], []⟩).2.2.hist⟩)
    ∧ (runner3.run_loopE 1000 P3e 3 3 1 ⟨"", [], []⟩
      = runner3.run_loopE 1000 P3e 3 2 2 (runner3.roundData 1000 P3e 1 ⟨"", [], []⟩).2.2)
    ∧ (runner3.run_loopE 1000 P3bad 3 3 1 ⟨"", [], []⟩ = Except.error PyExn.attributeError)
    ∧ (runner2.run_loopE 1000 Q2q "t-1" 3 3 1 ⟨"", [], []⟩
      = Except.ok ⟨"t-1", true, some (runner2.doRoundT Q2q "t-1" 1 ⟨"", [], []⟩).2.2,
          none, 1, [] ++ (runner2.doRoundT Q2q "t-1" 1 ⟨"", [], []⟩).2.1,
          some (runner2.rawOf Q2q ⟨"", [], []⟩)⟩) := by
  refine ⟨?_, ?_, ?_, ?_⟩
  · refine c1_completion_rule.1 1000 P3q 3 2 1 ⟨"", [], []⟩
      (runner3.roundData 1000 P3q 1 ⟨"", [], []⟩) rfl ⟨?_, ?_⟩
    · exact List.ne_nil_of_length_pos (by
        rw [show ((runner3.roundData 1000 P3q 1 ⟨"", [], []⟩).1.filter fun e =>
            runner3.isQuoteName e.tool_name).length = 1 from rfl]
        decide)
    · intro e he
      have hall := List.all_eq_true.mp
        (show ((runner3.roundData 1000 P3q 1 ⟨"", [], []⟩).1.filter
          fun e => runner3.isQuoteName e.tool_name).all
          (fun e => e.result.getHttp == some 200) = true from rfl) e he
      simpa using hall
  · exact c1_completion_rule.2.1 1000 P3e 3 2 1 ⟨"", [], []⟩
      (runner3.roundData 1000 P3e 1 ⟨"", [], []⟩) rfl (Or.inl rfl)
  · exact c1_completion_rule.2.2.1 1000 P3bad 3 2 1 ⟨"", [], []⟩ PyExn.attributeError rfl
  · exact (c1_completion_rule.2.2.2 1000 Q2q "t-1" 3 2 1 ⟨"", [], []⟩
      (runner2.extractL (runner2.rawOf Q2q ⟨"", [], []⟩).toList)
      (runner2.doRoundT Q2q "t-1" 1 ⟨"", [], []⟩).1
      (runner2.doRoundT Q2q "t-1" 1 ⟨"", [], []⟩).2.1
      (runner2.doRoundT Q2q "t-1" 1 ⟨"", [], []⟩).2.2 rfl rfl rfl).1
      (List.ne_nil_of_length_pos (by
        rw [show ((runner2.doRoundT Q2q "t-1" 1 ⟨"", [], []⟩).2.2).length = 1 from rfl]
        decide))

/-- C2 counterexample: runner2's invoker, on a locally validated
    get_shipping_quote call against an unreachable endpoint, propagates the
    transport exception past its boundary instead of returning a normalized
    result. -/
theorem c2_counterexample :
    runner2.call_tool "http://localhost:9000" downTransport "t-1" "get_shipping_quote"
        (mkQuoteArgs "DE" "10115" 1 1 (some "express"))
      = Except.error "connection refused"
    ∧ (runner2.QuoteArgs.validate (mkQuoteArgs "DE" "10115" 1 1 (some "express"))).isSome
        = true :=
  ⟨rfl, rfl⟩

/-- C2 (amended): for calls that reach its request, runner3's invoker
    normalizes every remote outcome — an unreachable endpoint becomes an
    http-500 error payload, an undecodable body likewise, and an unknown
    hashable tool name yields an error payload without any call.  But its
    entry code can itself raise: a truthy unhashable tool name raises
    TypeError at `tool_name not in tools`, and a known tool with non-dict args
    raises AttributeError at `args.items()`, both escaping the invoker.
    runner2's invoker normalizes responses with undecodable bodies, preserving
    the transport status, but (see `c2_counterexample`) propagates transport
    exceptions. -/
theorem c2_invoker_normalization :
    (∀ (limit : Nat) (base : String) (tools : List (String × runner3.ToolInfo))
        (name : String) (ti : runner3.ToolInfo) (args : List (String × Json)) (msg : String),
      lookupStr tools name = some ti →
      runner3.call_toolE limit base (fun _ _ => TransportResult.exn msg) tools
          (Json.str name) (Json.obj args)
        = Except.ok (runner3.ToolRes.httpRes 500 (Json.obj [("error", Json.str msg)])))
  ∧ (∀ (limit : Nat) (base : String) (transport : Transport)
        (tools : List (String × runner3.ToolInfo)) (name : String) (args : Json),
      lookupStr tools name = none →
      runner3.call_toolE limit base transport tools (Json.str name) args
        = Except.ok (runner3.ToolRes.errorOnly
            ("Unknown tool: " ++ runner3.pyStr (Json.str name))))
  ∧ (∀ (limit : Nat) (base : String) (tools : List (String × runner3.ToolInfo))
        (name : String) (ti : runner3.ToolInfo) (args : List (String × Json)) (status : Nat)
        (body : String) (err : PyErr),
      lookupStr tools name = some ti → json_loads_excL limit body.toList = Except.error err →
      runner3.call_toolE limit base (fun _ _ => TransportResult.resp status body) tools
          (Json.str name) (Json.obj args)
        = Except.ok (runner3.ToolRes.httpRes 500
            (Json.obj [("error", Json.str "json-decode-error")])))
  ∧ (∀ (limit : Nat) (base : String) (transport : Transport)
        (tools : List (String × runner3.ToolInfo)) (tool_name args : Json),
      runner3.jsonHashable tool_name = false →
      runner3.call_toolE limit base transport tools tool_name args
        = Except.error PyExn.typeError)
  ∧ (∀ (limit : Nat) (base : String) (transport : Transport)
        (tools : List (String × runner3.ToolInfo)) (name : String) (ti : runner3.ToolInfo)
        (args : Json),
      lookupStr tools name = some ti → (∀ kvs, args ≠ Json.obj kvs) →
      runner3.call_toolE limit base transport tools (Json.str name) args
        = Except.error PyExn.attributeError)
  ∧ (∀ (base trace_id : String) (args : List (String × Json)) (status : Nat) (body : String)
        (name : String),
      (name = "resolve_country" ∨ name = "resolve_postal_code" ∨ name = "get_shipping_quote") →
      runner2.call_tool base (fun _ _ => TransportResult.resp status body) trace_id name args
        = Except.ok ⟨status,
            match json_loadsL body.toList with
            | some j => j
            | none => Json.obj [("error", Json.str "non-json-response"),
                ("text", Json.str ⟨body.toList.take 500⟩)]⟩) := by
  refine ⟨?_, ?_, ?_, ?_, ?_, ?_⟩
  · intro limit base tools name ti args msg h
    simp only [runner3.call_toolE, runner3.jsonHashable, h]
    exact if_neg (by decide)
  · intro limit base transport tools name args h
    simp only [runner3.call_toolE, runner3.jsonHashable, h]
    exact if_neg (by decide)
  · intro limit base tools name ti args status body err h hbody
    simp only [runner3.call_toolE, runner3.jsonHashable, h, hbody]
    exact if_neg (by decide)
  · intro limit base transport tools tool_name args hth
    rw [runner3.call_toolE.eq_def, if_pos hth]
  · intro limit base transport tools name ti args h hargs
    cases args <;>
      first
        | exact absurd rfl (hargs _)
        | (simp only [runner3.call_toolE, runner3.jsonHashable, h]
           exact if_neg (by decide))
  · intro base trace_id args status body name hname
    rcases hname with h | h | h <;> subst h <;>
      · simp only [runner2.call_tool]
        cases json_loadsL body.toList <;> rfl

/-- Witness for C2: the amended invoker contracts applied at concrete calls —
    including a truthy dict tool name and a known tool with list args. -/
theorem c2_witness :
    runner3.call_toolE 1000 "b" (fun _ _ => TransportResult.exn "connection refused")
        toolTable (Json.str "get_shipping_quote") (Json.obj [])
      = Except.ok (runner3.ToolRes.httpRes 500
          (Json.obj [("error", Json.str "connection refused")]))
    ∧ runner3.call_toolE 1000 "b" okTransport toolTable (Json.str "nope") (Json.obj [])
      = Except.ok (runner3.ToolRes.errorOnly
          ("Unknown tool: " ++ runner3.pyStr (Json.str "nope")))
    ∧ runner3.call_toolE 1000 "b" (fun _ _ => TransportResult.resp 200 "not json") toolTable
        (Json.str "get_shipping_quote") (Json.obj [])
      = Except.ok (runner3.ToolRes.httpRes 500
          (Json.obj [("error", Json.str "json-decode-error")]))
    ∧ runner3.call_toolE 1000 "b" okTransport toolTable
        (Json.obj [("a", Json.num 1 1)]) (Json.obj [])
      = Except.error PyExn.typeError
    ∧ runner3.call_toolE 1000 "b" okTransport toolTable (Json.str "get_shipping_quote")
        (Json.arr [Json.num 1 1])
      = Except.error PyExn.attributeError
    ∧ runner2.call_tool "b" (fun _ _ => TransportResult.resp 503 "oops") "t"
        "get_shipping_quote" []
      = Except.ok ⟨503,
          match json_loadsL "oops".toList with
          | some j => j
          | none => Json.obj [("error", Json.str "non-json-response"),
              ("text", Json.str ⟨"oops".toList.take 500⟩)]⟩ :=
  ⟨c2_invoker_normalization.1 1000 "b" toolTable "get_shipping_quote"
      ⟨"/v1/shipping/quote", "", "", ""⟩ [] "connection refused" rfl,
   c2_invoker_normalization.2.1 1000 "b" okTransport toolTable "nope" (Json.obj []) rfl,
   c2_invoker_normalization.2.2.1 1000 "b" toolTable "get_shipping_quote"
      ⟨"/v1/shipping/quote", "", "", ""⟩ [] 200 "not json" PyErr.decodeError rfl rfl,
   c2_invoker_normalization.2.2.2.1 1000 "b" okTransport toolTable
      (Json.obj [("a", Json.num 1 1)]) (Json.obj []) rfl,
   c2_invoker_normalization.2.2.2.2.1 1000 "b" okTransport toolTable "get_shipping_quote"
      ⟨"/v1/shipping/quote", "", "", ""⟩ (Json.arr [Json.num 1 1]) rfl
      (fun kvs h => Json.noConfusion h),
   c2_invoker_normalization.2.2.2.2.2 "b" "t" [] 503 "oops" "get_shipping_quote"
      (Or.inr (Or.inr rfl))⟩

/-- C8 counterexample: runner3 extracts the object with no tool_name field, but
    its object loop then leaves no record at all for it — the invalid call is
    neither invoked nor appended anywhere as a recorded failure; and a call
    whose invocation raises (list-valued args → AttributeError) aborts the
    object loop, skipping a subsequent valid call that alone would have been
    invoked and recorded. -/
theorem c8_counterexample :
    runner3.extract_excL 1000 ("\x7b\"foo\":1\x7d".toList)
      = [Json.obj [("foo", Json.num 1 1)]]
    ∧ runner3.processObjsE 1000 P3e [Json.obj [("foo", Json.num 1 1)]]
      = Except.ok ([], [])
    ∧ runner3.processObjsE 1000 P3e
        [Json.obj [("tool_name", Json.str "get_shipping_quote"),
           ("args", Json.arr [Json.num 1 1])],
         Json.obj [("tool_name", Json.str "get_shipping_quote"),
           ("args", Json.obj [("country", Json.str "DE"),
             ("postal_code", Json.str "10115"), ("weight_kg", Json.num 1 1),
             ("service", Json.str "express")])]]
      = Except.error PyExn.attributeError
    ∧ (runner3.processObjsE 1000 P3e
        [Json.obj [("tool_name", Json.str "get_shipping_quote"),
           ("args", Json.obj [("country", Json.str "DE"),
             ("postal_code", Json.str "10115"), ("weight_kg", Json.num 1 1),
             ("service", Json.str "express")])]]).map (fun p => p.1.length)
      = Except.ok 1 :=
  ⟨rfl, rfl, rfl, rfl⟩

/-- C8 (amended): within a round whose calls all complete, every extracted
    object is processed in extraction order and no invalid or failed call
    short-circuits the rest; in runner2 each object yields exactly one round
    entry in order, valid calls yield history events in order and invalid
    calls yield a schema-error entry without being invoked (recorded in the
    round results, not in tool_history), and the final tool_history only ever
    grows by appending each round's events; runner3 likewise processes
    non-raising objects in order, but silently skips objects without a truthy
    tool_name, and a call whose invocation raises aborts the object loop with
    the exception, skipping every remaining object regardless of its content
    (see `c8_counterexample`). -/
theorem c8_processing_order :
    (∀ (Q : runner2.Params) (trace_id : String), NoRaise Q.transport →
      ∀ (round_idx : Nat) (objs : List Json),
      runner2.processObjs Q trace_id round_idx objs
        = Except.ok (objs.map (runner2.entryFor Q trace_id round_idx),
            objs.filterMap (runner2.eventFor Q trace_id round_idx),
            objs.filterMap (runner2.quoteFor Q trace_id round_idx)))
  ∧ (∀ (Q : runner2.Params) (trace_id : String) (round_idx : Nat) (obj : Json),
      runner2.validate_toolcall obj = none →
      runner2.entryFor Q trace_id round_idx obj = runner2.RoundEntry.schemaError obj
      ∧ runner2.eventFor Q trace_id round_idx obj = none)
  ∧ (∀ (limit : Nat) (Q : runner2.Params) (trace_id : String)
        (max_rounds fuel round_idx : Nat)
        (st : runner2.LoopSt) (res : runner2.RunResult),
      runner2.run_loopE limit Q trace_id max_rounds fuel round_idx st = Except.ok res →
      ∃ sfx, res.tool_history = st.hist ++ sfx)
  ∧ (∀ (limit : Nat) (P : runner3.Params) (objs : List Json),
      (∀ obj ∈ objs, runner3.benignB limit P obj = true) →
      runner3.processObjsE limit P objs
        = Except.ok (objs.filterMap (runner3.eventForE limit P),
            objs.filterMap (runner3.quoteOfE limit P)))
  ∧ (∀ (limit : Nat) (P : runner3.Params) (e : PyExn)
        (objs₁ : List Json) (obj : Json) (objs₂ : List Json),
      (∀ o ∈ objs₁, runner3.benignB limit P o = true) →
      runner3.jsonTruthy ((runner3.dictGet obj "tool_name").getD Json.null) = true →
      runner3.call_toolE limit P.base_url P.transport P.tools
          ((runner3.dictGet obj "tool_name").getD Json.null)
          ((runner3.dictGet obj "args").getD (Json.obj [])) = Except.error e →
      runner3.processObjsE limit P (objs₁ ++ obj :: objs₂) = Except.error e) := by
  refine ⟨?_, ?_, ?_, ?_, ?_⟩
  · intro Q trace_id hNR round_idx objs
    exact runner2.processObjs_eq Q hNR trace_id round_idx objs
  · intro Q trace_id round_idx obj h
    exact ⟨by simp [runner2.entryFor, h], by simp [runner2.eventFor, h]⟩
  · intro limit Q trace_id max_rounds fuel round_idx st res h
    exact runner2.run_loopE_hist2 limit Q trace_id max_rounds fuel round_idx st res h
  · intro limit P objs h
    exact runner3.processObjsE_eq3 limit P objs h
  · intro limit P e objs₁ obj objs₂ h1 ht hc
    exact runner3.processObjsE_raise3 limit P e objs₁ obj objs₂ h1 ht hc

/-- Witness for C8: the processing-order contracts applied at a concrete
    object list, a concrete invalid object, a concrete completed run, a
    concrete benign object list, and a concrete raising call followed by a
    skipped valid one. -/
theorem c8_witness :
    (runner2.processObjs Q2q "t-2" 1 [Json.obj []]
      = Except.ok ([Json.obj []].map (runner2.entryFor Q2q "t-2" 1),
          [Json.obj []].filterMap (runner2.eventFor Q2q "t-2" 1),
          [Json.obj []].filterMap (runner2.quoteFor Q2q "t-2" 1)))
    ∧ (runner2.entryFor Q2q "t-2" 1 (Json.obj [])
          = runner2.RoundEntry.schemaError (Json.obj [])
        ∧ runner2.eventFor Q2q "t-2" 1 (Json.obj []) = none)
    ∧ (∃ sfx, (⟨"t-2", false, none, some "no_quote_within_max_rounds", 3, [], none⟩ :
        runner2.RunResult).tool_history = ([] : List runner2.Event) ++ sfx)
    ∧ (runner3.processObjsE 1000 P3e [Json.obj [("foo", Json.num 1 1)]]
        = Except.ok ([Json.obj [("foo", Json.num 1 1)]].filterMap
            (runner3.eventForE 1000 P3e),
          [Json.obj [("foo", Json.num 1 1)]].filterMap (runner3.quoteOfE 1000 P3e)))
    ∧ (runner3.processObjsE 1000 P3e
        ([] ++ Json.obj [("tool_name", Json.str "get_shipping_quote"),
            ("args", Json.arr [Json.num 1 1])]
          :: [Json.obj [("tool_name", Json.str "resolve_country"),
               ("args", Json.obj [("name", Json.str "Germany")])]])
        = Except.error PyExn.attributeError) :=
  ⟨c8_processing_order.1 Q2q "t-2" okTransport_noRaise 1 [Json.obj []],
   c8_processing_order.2.1 Q2q "t-2" 1 (Json.obj []) rfl,
   c8_processing_order.2.2.1 1000 Q2e "t-2" 3 3 1 ⟨"", [], []⟩
     ⟨"t-2", false, none, some "no_quote_within_max_rounds", 3, [], none⟩ rfl,
   c8_processing_order.2.2.2.1 1000 P3e [Json.obj [("foo", Json.num 1 1)]]
     (by intro obj h; simp only [List.mem_singleton] at h; rw [h]; rfl),
   c8_processing_order.2.2.2.2 1000 P3e PyExn.attributeError []
     (Json.obj [("tool_name", Json.str "get_shipping_quote"),
        ("args", Json.arr [Json.num 1 1])])
     [Json.obj [("tool_name", Json.str "resolve_country"),
        ("args", Json.obj [("name", Json.str "Germany")])]]
     (by intro o h; cases h) rfl rfl⟩

/-- C9: runner2's orchestrator is deterministic in the model replies and remote
    responses — two runs with the same parameters (model reply function, user
    text, base address, transport) and round budget but different correlation
    identifiers produce identical run dicts after erasing the identifier. -/
theorem c9_determinism (P : runner2.Params) (t1 t2 : String) (max_rounds : Nat) :
    (runner2.run_agentic P t1 max_rounds).map runner2.stripTrace
      = (runner2.run_agentic P t2 max_rounds).map runner2.stripTrace :=
  runner2.run_loop_trace P t1 t2 max_rounds max_rounds 1 ⟨"", [], []⟩

/-- C10: for every run with round budget ≥ 1, the returned run dict satisfies:
    if ok=true then the quotes list is present and non-empty, every quote in it
    corresponds to a get_shipping_quote invocation in the tool history whose
    result had http status 200, and 1 ≤ rounds_used ≤ max_rounds; if ok=false
    then rounds_used = max_rounds and no quotes are returned — for runner2
    (stated on non-raising runs, which are the only successfully returning
    ones) and for runner3. -/
theorem c10_result_invariant :
    (∀ (Q : runner2.Params) (trace_id : String) (max_rounds : Nat) (res : runner2.RunResult),
      1 ≤ max_rounds →
      runner2.run_agentic Q trace_id max_rounds = Except.ok res →
      ((res.ok = true → ∃ qs, res.quotes = some qs ∧ qs ≠ [] ∧
          (∀ q ∈ qs, ∃ e ∈ res.tool_history, e.tool_name = "get_shipping_quote" ∧
            e.result.http = 200 ∧ e.args = q.args ∧ e.result.json = q.response) ∧
          1 ≤ res.rounds_used ∧ res.rounds_used ≤ max_rounds) ∧
       (res.ok = false → res.rounds_used = max_rounds ∧ res.quotes = none)))
  ∧ (∀ (model : String → String → String → String) (user base : String)
        (transport : Transport) (tools : List (String × runner3.ToolInfo)) (max_rounds : Nat),
      1 ≤ max_rounds →
      ∀ res : runner3.RunResult,
      runner3.run_agentic model user base transport tools max_rounds = res →
      ((res.ok = true → ∃ qs, res.quotes = some qs ∧ qs ≠ [] ∧
          (∀ q ∈ qs, ∃ e ∈ res.tool_history, runner3.isQuoteName e.tool_name = true ∧
            e.result = runner3.ToolRes.httpRes 200 q.response ∧ e.args = q.args) ∧
          1 ≤ res.rounds_used ∧ res.rounds_used ≤ max_rounds) ∧
       (res.ok = false → res.rounds_used = max_rounds ∧ res.quotes = none))) := by
  constructor
  · intro Q trace_id max_rounds res h1 h
    have hinv := runner2.run_loop_invariant Q trace_id max_rounds max_rounds 1
      ⟨"", [], []⟩ res h rfl (le_refl 1)
    refine ⟨fun hok => ?_, hinv.2⟩
    obtain ⟨qs, ha, hb, hc, hd, he⟩ := hinv.1 hok
    exact ⟨qs, ha, hb, hc, hd, by omega⟩
  · intro model user base transport tools max_rounds h1 res h
    have hinv := runner3.run_loop_invariant3 ⟨model, user, base, transport, tools,
        runner3.format_tools_for_prompt tools⟩ max_rounds max_rounds 1 ⟨"", [], []⟩ res h
      (fun q hq => absurd hq (List.not_mem_nil q)) (le_refl 1)
    refine ⟨fun hok => ?_, hinv.2⟩
    obtain ⟨qs, ha, hb, hc, hd, he⟩ := hinv.1 hok
    exact ⟨qs, ha, hb, hc, hd, by omega⟩

/-- The concrete exhausted runner2 run dict used to instantiate the invariant. -/
def res2x : runner2.RunResult :=
  ⟨"t-3", false, none, some "no_quote_within_max_rounds", 3, [], none⟩

/-- The concrete exhausted runner3 run dict used to instantiate the invariant. -/
def res3x : runner3.RunResult := ⟨false, none, some "max_rounds", 3, []⟩

/-- Witness for C10: the invariant applied at concrete exhausted runs of both
    orchestrators. -/
theorem c10_witness :
    ((res2x.ok = true → ∃ qs, res2x.quotes = some qs ∧ qs ≠ [] ∧
        (∀ q ∈ qs, ∃ e ∈ res2x.tool_history, e.tool_name = "get_shipping_quote" ∧
          e.result.http = 200 ∧ e.args = q.args ∧ e.result.json = q.response) ∧
        1 ≤ res2x.rounds_used ∧ res2x.rounds_used ≤ 3) ∧
      (res2x.ok = false → res2x.rounds_used = 3 ∧ res2x.quotes = none))
    ∧ ((res3x.ok = true → ∃ qs, res3x.quotes = some qs ∧ qs ≠ [] ∧
        (∀ q ∈ qs, ∃ e ∈ res3x.tool_history, runner3.isQuoteName e.tool_name = true ∧
          e.result = runner3.ToolRes.httpRes 200 q.response ∧ e.args = q.args) ∧
        1 ≤ res3x.rounds_used ∧ res3x.rounds_used ≤ 3) ∧
      (res3x.ok = false → res3x.rounds_used = 3 ∧ res3x.quotes = none)) :=
  ⟨c10_result_invariant.1 Q2e "t-3" 3 res2x (by decide) rfl,
   c10_result_invariant.2 (fun _ _ _ => "") "user" "http://localhost:9000" okTransport
     toolTable 3 (by decide) res3x rfl⟩

end DSPyTut
